import Mathlib

/-!
# go-bitvavo WebSocket subscription engine — verification development

A shallow embedding of the WebSocket subscription/reconnection engine of the
`larscom/go-bitvavo` repository (package `ws`), together with proofs about it.

The repository snapshot contains several historical versions of the engine.  The
embedding below follows the cited versions:

* the generic registry helpers of `src/unnamed/part_034` (`requireSubscription`,
  `requireNoSubscription`, `deleteSubscriptions`, `getSubscriptionKeys`),
* the ticker handler of `src/unnamed/part_032` (multi-market `Subscribe` /
  `Unsubscribe` / `reconnect`, concurrent map keyed by market, per-call group id),
* the candles handler of `src/ws/candles.go` (first section, keys `market_interval`),
* the account handler of `src/unnamed/part_035` (second section: authentication
  gate `withAuth`, rendezvous channel `authchn`, `handleAuthMessage`),
* both inbound dispatchers: the broadcast `handleEvent` of `src/unnamed/part_031`
  and the switch-based `handleEvent` of `src/ws/wsclient.go`,
* the book handler `Subscribe` of `src/ws/book.go` (first section), whose shared
  outbound channel capacity differs from the ticker handler's.

Modelling conventions:

* Go channels are modelled by numeric identifiers allocated from a counter in the
  state; creating, closing and relaying between channels, and enqueueing a message
  onto the outbound write channel, are recorded in an explicit effect trace.
* The concurrent maps (`csmap.CsMap`, `safemap.SafeMap`) are modelled as
  association lists in insertion order; their unspecified iteration order is
  refined to list order, and the unspecified iteration order of Go's built-in
  maps is refined to first-insertion order.
* `mapset.NewSet(markets...).ToSlice()` (in `getUniqueMarkets`) returns the
  distinct markets in an unspecified order; it is refined to `List.dedup`.
* The blocking receive from the single-slot rendezvous `authchn` is modelled by
  an explicit parameter `authReply : Bool` holding the value the inbound
  dispatcher delivers; `time.Now().UnixMilli()` is an explicit parameter `now`.
-/

set_option autoImplicit false

namespace Bitvavo

/-- Go `defaultBuffSize` from `src/unnamed/part_031`. -/
def defaultBuffSize : Nat := 50

/-- The synchronous caller-visible errors of the `ws` package
(`errNoSubscriptionActive`, `errSubscriptionAlreadyActive`,
`errAuthenticationFailed` in `src/unnamed/part_031`). -/
inductive WsError : Type where
  | noSubscriptionActive (market : String)
  | subscriptionAlreadyActive (market : String)
  | authenticationFailed
deriving DecidableEq, Repr

/-- Wire `Channel` object (`src/unnamed/part_033`). -/
structure Channel : Type where
  name : String
  intervals : List String
  markets : List String
deriving DecidableEq, Repr

/-- Outbound control message (`WebSocketMessage` in `src/unnamed/part_033`).
Fields that Go leaves at their zero value (omitempty) are the empty string / 0. -/
structure WebSocketMessage : Type where
  action : String
  channels : List Channel
  key : String
  signature : String
  timestamp : Int
deriving DecidableEq, Repr

/-- Go `newWebSocketMessage` (`src/unnamed/part_031`). -/
def newWebSocketMessage (action : String) (channelName : String)
    (markets : List String) : WebSocketMessage :=
  { action := action
    channels := [{ name := channelName, intervals := [], markets := markets }]
    key := ""
    signature := ""
    timestamp := 0 }

/-- Go `newCandleWebSocketMessage` (`src/ws/candles.go`). -/
def newCandleWebSocketMessage (action : String) (markets : List String)
    (interval : String) : WebSocketMessage :=
  { action := action
    channels := [{ name := "candles", intervals := [interval], markets := markets }]
    key := ""
    signature := ""
    timestamp := 0 }

/-- One `subscription[T]` record (`src/unnamed/part_034`): the per-call group id
(`uuid.UUID`, modelled as `Nat`), the market, and the two channels together with
the capacities they were created with. -/
structure Sub : Type where
  id : Nat
  market : String
  inchn : Nat
  inCap : Nat
  outchn : Nat
  outCap : Nat
deriving DecidableEq, Repr

/-- Observable side effects of a registry operation, in program order. -/
inductive Effect : Type where
  /-- Go `make(chan T, cap)` -/
  | chanCreated (ch : Nat) (cap : Nat)
  /-- Go `close(ch)` -/
  | chanClosed (ch : Nat)
  /-- Go `go relayMessages(src, dst)` -/
  | relayStarted (src : Nat) (dst : Nat)
  /-- Go `writechn <- msg`: a control message enqueued to the outbound dispatcher -/
  | msgSent (m : WebSocketMessage)
  /-- Go `authchn <- b`: a boolean pushed into the authentication rendezvous -/
  | authPushed (b : Bool)
deriving DecidableEq, Repr

/-- The channels closed in an effect trace, in order. -/
def closedChans (effects : List Effect) : List Nat :=
  effects.filterMap fun e =>
    match e with
    | .chanClosed ch => some ch
    | _ => none

/-- The channels created in an effect trace, with their capacities, in order. -/
def createdChans (effects : List Effect) : List (Nat × Nat) :=
  effects.filterMap fun e =>
    match e with
    | .chanCreated ch cap => some (ch, cap)
    | _ => none

/-- The control messages enqueued in an effect trace, in order. -/
def sentMsgs (effects : List Effect) : List WebSocketMessage :=
  effects.filterMap fun e =>
    match e with
    | .msgSent m => some m
    | _ => none

/-! ## Generic registry helpers (`src/unnamed/part_034`, `part_033`) -/

/-- Go `getUniqueMarkets` (`src/unnamed/part_033`): `mapset.NewSet(markets...).ToSlice()`.
The set's unspecified order is refined to `List.dedup`. -/
def getUniqueMarkets (markets : List String) : List String :=
  markets.dedup

/-- Go `subs.Has(market)` on the concurrent map, modelled as an association list. -/
def hasKey {V : Type} (subs : List (String × V)) (k : String) : Bool :=
  subs.any fun p => p.1 = k

/-- Go `subs.Load(market)` / `subs.Get(market)`. -/
def lookupSub {V : Type} (subs : List (String × V)) (k : String) : Option V :=
  (subs.find? fun p => p.1 = k).map Prod.snd

/-- Go `getSubscriptionKeys` (`src/unnamed/part_034`): `Range` collecting all keys. -/
def getSubscriptionKeys {V : Type} (subs : List (String × V)) : List String :=
  subs.map Prod.fst

/-- Go `requireSubscription` (`src/unnamed/part_034`): the first requested market
that is not present, if any (the market named by `errNoSubscriptionActive`). -/
def requireSubscription {V : Type} (subs : List (String × V))
    (markets : List String) : Option String :=
  markets.find? fun m => !(hasKey subs m)

/-- Go `requireNoSubscription` (`src/unnamed/part_034`): the first requested market
that is already present, if any (the market named by `errSubscriptionAlreadyActive`). -/
def requireNoSubscription {V : Type} (subs : List (String × V))
    (markets : List String) : Option String :=
  markets.find? fun m => hasKey subs m

/-! ## Grouping (Go `map[uuid.UUID][]string` built by appending)

`deleteSubscriptions` builds `idsWithKeys` by iterating the requested keys and
appending each key to the entry of its subscription's group id; the candles
handler's `getIntervalMarkets` builds `map[string][]string` the same way.  Both
are modelled by `groupBy?`; the unspecified iteration order of the Go map is
refined to first-insertion order. -/

/-- Go `m[a] = append(m[a], b)` on an association-list map in insertion order. -/
def insertGrouped {α β : Type} [DecidableEq α] (acc : List (α × List β))
    (a : α) (b : β) : List (α × List β) :=
  if acc.any (fun p => p.1 = a) then
    acc.map fun p => if p.1 = a then (p.1, p.2 ++ [b]) else p
  else
    acc ++ [(a, [b])]

/-- Iterate `l`, classify each element into a group key and a value (skipping
elements that classify to `none`), appending values per group in order. -/
def groupBy? {α β γ : Type} [DecidableEq β] (classify : α → Option (β × γ))
    (l : List α) : List (β × List γ) :=
  l.foldl
    (fun acc x =>
      match classify x with
      | none => acc
      | some bc => insertGrouped acc bc.1 bc.2)
    []

/-- All values classified into group `b`, in order. -/
def groupProj {α β γ : Type} [DecidableEq β] (classify : α → Option (β × γ))
    (b : β) (l : List α) : List γ :=
  l.filterMap fun x =>
    match classify x with
    | none => none
    | some bc => if bc.1 = b then some bc.2 else none

/-- First-entry lookup on an association list with propositional key equality. -/
def lookupKey {β δ : Type} [DecidableEq β] (l : List (β × δ)) (b : β) : Option δ :=
  (l.find? fun p => p.1 = b).map Prod.snd

/-! ## The generic single-stream registry
(`tickerEventHandler` of `src/unnamed/part_032`; the book, ticker24h, trades and
candles handlers of the same version instantiate the identical pattern with a
different channel name). -/

/-- State of one single-stream registry: the concurrent map `subs` in insertion
order plus allocation counters for group ids (`uuid.New()`) and channels. -/
structure RegState : Type where
  subs : List (String × Sub)
  nextId : Nat
  nextChan : Nat
deriving DecidableEq, Repr

/-- Result of `Subscribe`: the Go `(<-chan T, error)` pair, the registry state
after the call, and the effect trace of the call. -/
structure SubscribeResult : Type where
  result : Except WsError Nat
  state : RegState
  effects : List Effect
deriving Repr

/-- Result of `Unsubscribe`. -/
structure UnsubscribeResult : Type where
  result : Option WsError
  state : RegState
  effects : List Effect
deriving DecidableEq, Repr

/-- Go `Subscribe` of the single-stream registry (`src/unnamed/part_032`, lines 57–79):
dedup the markets, fail atomically if any is already subscribed, otherwise create
the shared outbound channel with capacity `size * len(markets)`, one inbound
channel of capacity `size` per market (each with a relay task), store the
subscriptions under one fresh group id, and enqueue one subscribe message. -/
def genSubscribe (channelName : String) (st : RegState) (markets : List String)
    (buffSize : Option Nat) : SubscribeResult :=
  let ms := getUniqueMarkets markets
  match requireNoSubscription st.subs ms with
  | some m => ⟨.error (.subscriptionAlreadyActive m), st, []⟩
  | none =>
    let size := buffSize.getD defaultBuffSize
    let outchn := st.nextChan
    let outCap := size * ms.length
    let newSubs : List (String × Sub) := ms.enum.map fun im =>
      (im.2, ⟨st.nextId, im.2, st.nextChan + 1 + im.1, size, outchn, outCap⟩)
    let perMarket : List Effect := (ms.enum.map fun im =>
      [Effect.chanCreated (st.nextChan + 1 + im.1) size,
       Effect.relayStarted (st.nextChan + 1 + im.1) outchn]).flatten
    ⟨.ok outchn,
     { subs := st.subs ++ newSubs
       nextId := st.nextId + 1
       nextChan := st.nextChan + 1 + ms.length },
     Effect.chanCreated outchn outCap :: perMarket
       ++ [Effect.msgSent (newWebSocketMessage "subscribe" channelName ms)]⟩

/-- Phase 1 of `deleteSubscriptions` (`src/unnamed/part_034`, lines 115–121):
for each requested key in order, if present, close its inbound channel. -/
def inChanCloses (subs : List (String × Sub)) (keys : List String) : List Effect :=
  keys.filterMap fun k => (lookupSub subs k).map fun s => Effect.chanClosed s.inchn

/-- Go `counts` of `deleteSubscriptions` (lines 109–113): how many registry entries
carry group id `g`. -/
def countId (subs : List (String × Sub)) (g : Nat) : Nat :=
  (subs.filter fun p => p.2.id = g).length

/-- Go `idsWithKeys` of `deleteSubscriptions`: the requested keys that are present,
grouped by their subscription's group id. -/
def groupIds (subs : List (String × Sub)) (keys : List String) :
    List (Nat × List String) :=
  groupBy? (fun k => (lookupSub subs k).map fun s => (s.id, k)) keys

/-- Phase 2 of `deleteSubscriptions` (lines 123–132): for each group whose entry
count in the registry equals the number of requested keys of that group, close
the shared outbound channel (looked up via the group's first requested key). -/
def outChanCloses (subs : List (String × Sub)) (keys : List String) : List Effect :=
  (groupIds subs keys).filterMap fun gks =>
    match gks.2 with
    | [] => none
    | k :: _ =>
      if countId subs gks.1 = gks.2.length then
        (lookupSub subs k).map fun s => Effect.chanClosed s.outchn
      else none

/-- Go `deleteSubscriptions` (`src/unnamed/part_034`, lines 105–135): close the
inbound channel of every present requested key, close the outbound channel of
every group all of whose registry entries were requested, and delete the
requested keys.  Always returns nil. -/
def deleteSubscriptions (subs : List (String × Sub)) (keys : List String) :
    List (String × Sub) × List Effect :=
  ((subs.filter fun p => !(keys.contains p.1)),
   inChanCloses subs keys ++ outChanCloses subs keys)

/-- Go `Unsubscribe` of the single-stream registry (`src/unnamed/part_032`,
lines 81–91): dedup, fail atomically if any market is absent, otherwise enqueue
one unsubscribe message and run `deleteSubscriptions`. -/
def genUnsubscribe (channelName : String) (st : RegState)
    (markets : List String) : UnsubscribeResult :=
  let ms := getUniqueMarkets markets
  match requireSubscription st.subs ms with
  | some m => ⟨some (.noSubscriptionActive m), st, []⟩
  | none =>
    let del := deleteSubscriptions st.subs ms
    ⟨none,
     { st with subs := del.1 },
     Effect.msgSent (newWebSocketMessage "unsubscribe" channelName ms) :: del.2⟩

/-- Go `reconnect` of the single-stream registry (`src/unnamed/part_032`,
lines 116–118): re-enqueue one subscribe message for the current key set;
nothing else. -/
def genReconnect (channelName : String) (st : RegState) :
    RegState × List Effect :=
  (st,
   [Effect.msgSent
      (newWebSocketMessage "subscribe" channelName (getSubscriptionKeys st.subs))])

/-- The ticker registry (`src/unnamed/part_032`). -/
def tickerSubscribe : RegState → List String → Option Nat → SubscribeResult :=
  genSubscribe "ticker"

/-- The ticker registry's `Unsubscribe`. -/
def tickerUnsubscribe : RegState → List String → UnsubscribeResult :=
  genUnsubscribe "ticker"

/-- The ticker registry's `reconnect`. -/
def tickerReconnect : RegState → RegState × List Effect :=
  genReconnect "ticker"

/-- Go `Subscribe` of the book handler as written in `src/ws/book.go` (first
section, lines 57–79).  It differs from the generic pattern above in exactly one
place: the shared outbound channel is created with capacity `size`
(line 66: `outchn = make(chan BookEvent, size)`), not `size * len(markets)`. -/
def bookSubscribeWsBookGo (st : RegState) (markets : List String)
    (buffSize : Option Nat) : SubscribeResult :=
  let ms := getUniqueMarkets markets
  match requireNoSubscription st.subs ms with
  | some m => ⟨.error (.subscriptionAlreadyActive m), st, []⟩
  | none =>
    let size := buffSize.getD defaultBuffSize
    let outchn := st.nextChan
    let newSubs : List (String × Sub) := ms.enum.map fun im =>
      (im.2, ⟨st.nextId, im.2, st.nextChan + 1 + im.1, size, outchn, size⟩)
    let perMarket : List Effect := (ms.enum.map fun im =>
      [Effect.chanCreated (st.nextChan + 1 + im.1) size,
       Effect.relayStarted (st.nextChan + 1 + im.1) outchn]).flatten
    ⟨.ok outchn,
     { subs := st.subs ++ newSubs
       nextId := st.nextId + 1
       nextChan := st.nextChan + 1 + ms.length },
     Effect.chanCreated outchn size :: perMarket
       ++ [Effect.msgSent (newWebSocketMessage "subscribe" "book" ms)]⟩

/-! ## The candles registry (`src/ws/candles.go`, first section)

Keys are `market + "_" + interval`; only `reconnect` and its helpers are needed
here. -/

/-- Go `createKey` (`src/ws/candles.go`): `fmt.Sprintf("%s_%s", market, interval)`. -/
def createKey (market : String) (interval : String) : String :=
  market ++ "_" ++ interval

/-- Go `strings.Split` on the single-character separator `"_"`, on the character
list of the string. -/
def splitUnderscore : List Char → List (List Char)
  | [] => [[]]
  | c :: rest =>
    let r := splitUnderscore rest
    if c = '_' then [] :: r
    else
      match r with
      | [] => [[c]]
      | p :: ps => (c :: p) :: ps

/-- Go `parseKey` (`src/ws/candles.go`): split the key on `"_"`; the market is
`parts[0]` and the interval `parts[1]` (the Go code indexes unconditionally;
keys are always produced by `createKey`, missing parts default to `""` here). -/
def parseKey (key : String) : String × String :=
  let parts := splitUnderscore key.toList
  (String.mk (parts.headD []), String.mk ((parts.drop 1).headD []))

/-- Go `getIntervalMarkets` (`src/ws/candles.go`, lines 183–193): iterate the
registry keys, parse each into market and interval, and group the markets by
interval (`m[interval] = append(m[interval], market)`). -/
def getIntervalMarkets (subs : List (String × Sub)) : List (String × List String) :=
  groupBy? (fun p : String × Sub => some ((parseKey p.1).2, (parseKey p.1).1)) subs

/-- The markets subscribed at interval `i`, in registry order: all `parts[0]`
of keys whose `parts[1]` is `i`. -/
def marketsAtInterval (subs : List (String × Sub)) (i : String) : List String :=
  groupProj (fun p : String × Sub => some ((parseKey p.1).2, (parseKey p.1).1)) i subs

/-- Go `reconnect` of the candles handler (`src/ws/candles.go`, lines 177–181):
one subscribe message per distinct interval, listing the markets subscribed at
that interval; nothing else. -/
def candlesReconnect (st : RegState) : RegState × List Effect :=
  (st,
   (getIntervalMarkets st.subs).map fun im =>
     Effect.msgSent (newCandleWebSocketMessage "subscribe" im.2 im.1))

/-! ## The account registry (`src/unnamed/part_035`, second section) -/

/-- One `accountSubscription` (`src/unnamed/part_035`): a group id, the market,
and the order/fill inbound and outbound channels with their capacities. -/
structure AccountSub : Type where
  id : Nat
  market : String
  orderinchn : Nat
  fillinchn : Nat
  orderoutchn : Nat
  filloutchn : Nat
  inCap : Nat
  outCap : Nat
deriving DecidableEq, Repr

/-- State of the `accountEventHandler`: credentials, the `authenticated` flag,
and the subscription map, plus allocation counters.  The rendezvous channel
`authchn` carries no state between operations (it is unbuffered); the value it
delivers is a parameter of each operation. -/
structure AccountState : Type where
  apiKey : String
  apiSecret : String
  authenticated : Bool
  subs : List (String × AccountSub)
  nextId : Nat
  nextChan : Nat
deriving DecidableEq, Repr

/-- Modelled from the spec: `crypto.CreateSignature` (the Signer collaborator)
is not under `src/`; the spec describes it as a hex HMAC-SHA256 digest of
timestamp + method + path computed with the API secret.  Only its role as an
uninterpreted string value matters below. -/
def createSignature (method : String) (path : String) (timestamp : Int)
    (secret : String) : String :=
  "hmac-sha256(" ++ secret ++ ", " ++ toString timestamp ++ method ++ path ++ ")"

/-- Go `newWebSocketAuthMessage` (`src/unnamed/part_035`, lines 365–373). -/
def newWebSocketAuthMessage (apiKey : String) (apiSecret : String)
    (now : Int) : WebSocketMessage :=
  { action := "authenticate"
    channels := []
    key := apiKey
    signature := createSignature "GET" "/websocket" now apiSecret
    timestamp := now }

/-- Go `authenticate` + the first half of `withAuth` (`src/unnamed/part_035`,
lines 375–378 and 390–393): if not authenticated, enqueue the authenticate
message and block on `authchn`; the delivered value `authReply` becomes the new
`authenticated` flag. -/
def accountEnsureAuth (st : AccountState) (now : Int) (authReply : Bool) :
    AccountState × List Effect :=
  if st.authenticated then (st, [])
  else
    ({ st with authenticated := authReply },
     [Effect.msgSent (newWebSocketAuthMessage st.apiKey st.apiSecret now)])

/-- Result of the account `Subscribe`: the Go
`(<-chan OrderEvent, <-chan FillEvent, error)` triple (order and fill outbound
channel ids on success), the state after the call, and the effect trace. -/
structure AccountSubscribeResult : Type where
  result : Except WsError (Nat × Nat)
  state : AccountState
  effects : List Effect
deriving Repr

/-- Result of the account `Unsubscribe`. -/
structure AccountUnsubscribeResult : Type where
  result : Option WsError
  state : AccountState
  effects : List Effect
deriving Repr

/-- Go `Subscribe` of the account handler (`src/unnamed/part_035`, lines 254–286):
dedup, fail atomically on an already-present market, then `withAuth`: when
unauthenticated, authenticate first (one authenticate message, block on the
rendezvous); on failure return `errAuthenticationFailed` with nothing sent for
the original intent and nothing registered; on success enqueue the subscribe
message, then create the order/fill outbound channels (capacity
`size * len(markets)` each) and per-market inbound channels (capacity `size`)
with relay tasks, and store the subscriptions under one fresh group id. -/
def accountSubscribe (st : AccountState) (markets : List String)
    (buffSize : Option Nat) (now : Int) (authReply : Bool) :
    AccountSubscribeResult :=
  let ms := getUniqueMarkets markets
  match requireNoSubscription st.subs ms with
  | some m => ⟨.error (.subscriptionAlreadyActive m), st, []⟩
  | none =>
    let auth := accountEnsureAuth st now authReply
    if auth.1.authenticated then
      let st1 := auth.1
      let actEff := Effect.msgSent (newWebSocketMessage "subscribe" "account" ms)
      let size := buffSize.getD defaultBuffSize
      let outCap := size * ms.length
      let orderout := st1.nextChan
      let fillout := st1.nextChan + 1
      let newSubs : List (String × AccountSub) := ms.enum.map fun im =>
        (im.2,
         ⟨st1.nextId, im.2, st1.nextChan + 2 + 2 * im.1, st1.nextChan + 3 + 2 * im.1,
          orderout, fillout, size, outCap⟩)
      let perMarket : List Effect := (ms.enum.map fun im =>
        [Effect.chanCreated (st1.nextChan + 2 + 2 * im.1) size,
         Effect.chanCreated (st1.nextChan + 3 + 2 * im.1) size,
         Effect.relayStarted (st1.nextChan + 2 + 2 * im.1) orderout,
         Effect.relayStarted (st1.nextChan + 3 + 2 * im.1) fillout]).flatten
      ⟨.ok (orderout, fillout),
       { st1 with
           subs := st1.subs ++ newSubs
           nextId := st1.nextId + 1
           nextChan := st1.nextChan + 2 + 2 * ms.length },
       auth.2 ++ actEff ::
         Effect.chanCreated orderout outCap :: Effect.chanCreated fillout outCap ::
         perMarket⟩
    else ⟨.error .authenticationFailed, auth.1, auth.2⟩

/-- Phase 1 of the account `deleteSubscriptions` (`src/unnamed/part_035`,
lines 413–420): for each present requested key, close its order and fill
inbound channels. -/
def accountInChanCloses (subs : List (String × AccountSub)) (keys : List String) :
    List Effect :=
  (keys.map fun k =>
    match lookupSub subs k with
    | none => []
    | some s => [Effect.chanClosed s.orderinchn, Effect.chanClosed s.fillinchn]).flatten

/-- Go `counts` of the account `deleteSubscriptions` (lines 407–411). -/
def accountCountId (subs : List (String × AccountSub)) (g : Nat) : Nat :=
  (subs.filter fun p => p.2.id = g).length

/-- Go `idsWithKeys` of the account `deleteSubscriptions`. -/
def accountGroupIds (subs : List (String × AccountSub)) (keys : List String) :
    List (Nat × List String) :=
  groupBy? (fun k => (lookupSub subs k).map fun s => (s.id, k)) keys

/-- Phase 2 of the account `deleteSubscriptions` (lines 422–432): for each fully
requested group, close the shared order and fill outbound channels. -/
def accountOutChanCloses (subs : List (String × AccountSub)) (keys : List String) :
    List Effect :=
  ((accountGroupIds subs keys).map fun gks =>
    match gks.2 with
    | [] => []
    | k :: _ =>
      if accountCountId subs gks.1 = gks.2.length then
        match lookupSub subs k with
        | none => []
        | some s => [Effect.chanClosed s.orderoutchn, Effect.chanClosed s.filloutchn]
      else []).flatten

/-- Go `accountEventHandler.deleteSubscriptions` (`src/unnamed/part_035`,
lines 403–435). -/
def accountDeleteSubscriptions (subs : List (String × AccountSub))
    (keys : List String) : List (String × AccountSub) × List Effect :=
  ((subs.filter fun p => !(keys.contains p.1)),
   accountInChanCloses subs keys ++ accountOutChanCloses subs keys)

/-- Go `Unsubscribe` of the account handler (`src/unnamed/part_035`,
lines 288–302): dedup, fail atomically on an absent market, then `withAuth`
around enqueueing the unsubscribe message, then delete the subscriptions. -/
def accountUnsubscribe (st : AccountState) (markets : List String)
    (now : Int) (authReply : Bool) : AccountUnsubscribeResult :=
  let ms := getUniqueMarkets markets
  match requireSubscription st.subs ms with
  | some m => ⟨some (.noSubscriptionActive m), st, []⟩
  | none =>
    let auth := accountEnsureAuth st now authReply
    if auth.1.authenticated then
      let del := accountDeleteSubscriptions auth.1.subs ms
      ⟨none,
       { auth.1 with subs := del.1 },
       auth.2 ++ Effect.msgSent (newWebSocketMessage "unsubscribe" "account" ms) :: del.2⟩
    else ⟨some .authenticationFailed, auth.1, auth.2⟩

/-- Go `reconnect` of the account handler (`src/unnamed/part_035`, lines 380–388):
reset `authenticated` to false, then `withAuth` around re-enqueueing one
subscribe message for the current key set (so: authenticate first; on
authentication failure only the error is logged and no subscribe message is
sent). -/
def accountReconnect (st : AccountState) (now : Int) (authReply : Bool) :
    AccountState × List Effect :=
  let st0 := { st with authenticated := false }
  let auth := accountEnsureAuth st0 now authReply
  if auth.1.authenticated then
    (auth.1,
     auth.2 ++
       [Effect.msgSent
          (newWebSocketMessage "subscribe" "account" (getSubscriptionKeys st.subs))])
  else (auth.1, auth.2)

/-! ## JSON and the authentication-result decode
(`AuthEvent` in `src/unnamed/part_033`; `handleAuthMessage` in
`src/unnamed/part_035`, lines 355–363). -/

/-- A JSON value. -/
inductive Json : Type where
  | null
  | bool (b : Bool)
  | num (n : Int)
  | str (s : String)
  | arr (elems : List Json)
  | obj (fields : List (String × Json))

/-- First field of the given name in a JSON object. -/
def getField (fields : List (String × Json)) (name : String) : Option Json :=
  (fields.find? fun p => p.1 = name).map Prod.snd

/-- Go `AuthEvent` (`src/unnamed/part_033`): `Event string`, `Authenticated bool`. -/
structure AuthEvent : Type where
  event : String
  authenticated : Bool
deriving DecidableEq, Repr

/-- Go `json.Unmarshal` of a frame into `AuthEvent`: the frame must be a JSON
object; the `"event"` field, when present, must be a string (JSON `null` leaves
the zero value, any other type is an unmarshal error), and likewise
`"authenticated"` must be a boolean; missing fields keep Go's zero values
(`""` / `false`); unknown fields are ignored. -/
def decodeAuthEvent : Json → Except String AuthEvent
  | .obj fields =>
    let ev : Except String String :=
      match getField fields "event" with
      | none => .ok ""
      | some .null => .ok ""
      | some (.str s) => .ok s
      | some _ => .error "cannot unmarshal into field Event of type string"
    let au : Except String Bool :=
      match getField fields "authenticated" with
      | none => .ok false
      | some .null => .ok false
      | some (.bool b) => .ok b
      | some _ => .error "cannot unmarshal into field Authenticated of type bool"
    match ev, au with
    | .ok e, .ok a => .ok ⟨e, a⟩
    | .error msg, _ => .error msg
    | _, .error msg => .error msg
  | _ => .error "cannot unmarshal into Go value of type AuthEvent"

/-- Go `handleAuthMessage` (`src/unnamed/part_035`, lines 355–363): decode the
frame as an `AuthEvent`; on success push the decoded `Authenticated` value into
the rendezvous channel, on decode failure log and push `false`. -/
def accountHandleAuthMessage (st : AccountState) (frame : Json) :
    AccountState × List Effect :=
  (st,
   [Effect.authPushed
      (match decodeAuthEvent frame with
       | .ok e => e.authenticated
       | .error _ => false)])

/-! ## Inbound dispatch (`src/unnamed/part_031` and `src/ws/wsclient.go`) -/

/-- The inbound event discriminator (`WsEvent` in `src/unnamed/part_034`). -/
inductive WsEvent : Type where
  | subscribed
  | unsubscribed
  | candle
  | ticker
  | ticker24h
  | trade
  | book
  | auth
  | order
  | fill
deriving DecidableEq, Repr

/-- The six topic kinds, one registry each. -/
inductive TopicKind : Type where
  | candles
  | ticker
  | ticker24h
  | trades
  | book
  | account
deriving DecidableEq, Repr

/-- The topic kind matching an event discriminator (the routing the spec
describes: `candle`→candles, `ticker`→ticker, `ticker24h`→ticker24h,
`trade`→trades, `book`→book, `authenticate`/`order`/`fill`→account;
`subscribed`/`unsubscribed` are consumed by the dispatcher itself). -/
def topicOfEvent : WsEvent → Option TopicKind
  | .subscribed => none
  | .unsubscribed => none
  | .candle => some .candles
  | .ticker => some .ticker
  | .ticker24h => some .ticker24h
  | .trade => some .trades
  | .book => some .book
  | .auth => some .account
  | .order => some .account
  | .fill => some .account

/-- Go `wsClient.handleEvent` of `src/unnamed/part_031` (lines 348–361): events
`subscribed` and `unsubscribed` are only logged; every other event is handed to
`handleMessage` of **every** registered handler, in registration order.  The
result is the list of handlers whose `handleMessage` is invoked with the frame. -/
def handleEventBroadcast (handlers : List TopicKind) (e : WsEvent) :
    List TopicKind :=
  match e with
  | .subscribed => []
  | .unsubscribed => []
  | _ => handlers

/-- Go `wsClient.handleEvent` of `src/ws/wsclient.go` (lines 349–383): a switch on
the event discriminator; each case calls the matching `handle*Event` helper,
which invokes `handleMessage` only on handlers of the matching concrete type.
The result is the list of handlers whose `handleMessage` is invoked. -/
def handleEventSwitch (handlers : List TopicKind) (e : WsEvent) :
    List TopicKind :=
  match e with
  | .subscribed => []
  | .unsubscribed => []
  | .candle => handlers.filter fun k => k = .candles
  | .ticker => handlers.filter fun k => k = .ticker
  | .ticker24h => handlers.filter fun k => k = .ticker24h
  | .trade => handlers.filter fun k => k = .trades
  | .book => handlers.filter fun k => k = .book
  | .auth => handlers.filter fun k => k = .account
  | .order => handlers.filter fun k => k = .account
  | .fill => handlers.filter fun k => k = .account

/-- Whether a handler's `handleMessage`, once invoked, attempts the final typed
decode of the frame.  From the sources of the `part_031` version: the ticker
handler (`src/unnamed/part_032`, lines 101–114), the ticker24h handler
(`src/ws/ticker24h.go`, first section) and the candles handler
(`src/ws/candles.go`, lines 157–175) ignore the discriminator argument (`_
WsEvent`) and unmarshal every frame; the book handler (`src/unnamed/part_030`)
returns early unless the event is `book`; the account handler
(`src/unnamed/part_035`, lines 312–323) switches on the discriminator and only
handles `authenticate`, `order` and `fill`.  The trades handler of this version
is not in the snapshot; it follows the same unguarded pattern as ticker24h. -/
def attemptsTypedDecode (k : TopicKind) (e : WsEvent) : Bool :=
  match k with
  | .ticker => true
  | .ticker24h => true
  | .candles => true
  | .trades => true
  | .book => e = .book
  | .account => e = .auth || e = .order || e = .fill

/-! ## Well-formedness of a registry

These invariants hold for every registry state reachable by the code (fresh
`uuid.New()` per call, fresh channels per call): keys are unique in the map,
two subscriptions share an outbound channel exactly when they were registered
by the same `Subscribe` call, and no inbound channel is an outbound channel. -/

/-- Registry invariants used to reason about `deleteSubscriptions`. -/
def RegWF (subs : List (String × Sub)) : Prop :=
  (subs.map Prod.fst).Nodup ∧
  (∀ p ∈ subs, ∀ q ∈ subs, (p.2.id = q.2.id ↔ p.2.outchn = q.2.outchn)) ∧
  (∀ p ∈ subs, ∀ q ∈ subs, p.2.inchn ≠ q.2.outchn)

instance (subs : List (String × Sub)) : Decidable (RegWF subs) := by
  unfold RegWF
  infer_instance

/-- The markets of group `g` currently in the registry, in registry order. -/
def groupMembers (subs : List (String × Sub)) (g : Nat) : List String :=
  (subs.filter fun p => p.2.id = g).map Prod.fst

/-- The shared outbound channel of group `g` (from its first registry entry). -/
def groupOutchn (subs : List (String × Sub)) (g : Nat) : Option Nat :=
  (subs.find? fun p => p.2.id = g).map fun p => p.2.outchn

/-- Whether requested key `k` currently belongs to group `g`. -/
def isGroupKey (subs : List (String × Sub)) (g : Nat) (k : String) : Bool :=
  match lookupSub subs k with
  | some s => s.id = g
  | none => false

/-! ## Basic lemmas about the map model -/

theorem lookupSub_cons {V : Type} (p : String × V) (rest : List (String × V))
    (k : String) :
    lookupSub (p :: rest) k = if p.1 = k then some p.2 else lookupSub rest k := by
  by_cases h : p.1 = k <;> simp [lookupSub, List.find?_cons, h]

theorem hasKey_iff {V : Type} (subs : List (String × V)) (k : String) :
    hasKey subs k = true ↔ k ∈ getSubscriptionKeys subs := by
  simp only [hasKey, List.any_eq_true, decide_eq_true_eq, getSubscriptionKeys,
    List.mem_map]

theorem requireNoSubscription_eq_none {V : Type} (subs : List (String × V))
    (markets : List String) :
    requireNoSubscription subs markets = none ↔
      ∀ m ∈ markets, m ∉ getSubscriptionKeys subs := by
  simp only [requireNoSubscription, List.find?_eq_none]
  constructor
  · intro h m hm
    rw [← hasKey_iff]
    simpa using h m hm
  · intro h m hm
    have := h m hm
    rw [← hasKey_iff] at this
    simpa using this

theorem requireSubscription_eq_none {V : Type} (subs : List (String × V))
    (markets : List String) :
    requireSubscription subs markets = none ↔
      ∀ m ∈ markets, m ∈ getSubscriptionKeys subs := by
  simp only [requireSubscription, List.find?_eq_none]
  constructor
  · intro h m hm
    rw [← hasKey_iff]
    simpa using h m hm
  · intro h m hm
    have := h m hm
    rw [← hasKey_iff] at this
    simpa using this

theorem requireNoSubscription_eq_some {V : Type} {subs : List (String × V)}
    {markets : List String} {m : String}
    (h : requireNoSubscription subs markets = some m) :
    m ∈ markets ∧ m ∈ getSubscriptionKeys subs := by
  refine ⟨List.mem_of_find?_eq_some h, ?_⟩
  have := List.find?_some h
  exact (hasKey_iff subs m).mp this

theorem requireSubscription_eq_some {V : Type} {subs : List (String × V)}
    {markets : List String} {m : String}
    (h : requireSubscription subs markets = some m) :
    m ∈ markets ∧ m ∉ getSubscriptionKeys subs := by
  refine ⟨List.mem_of_find?_eq_some h, ?_⟩
  have := List.find?_some h
  rw [← hasKey_iff]
  simpa using this

theorem lookupSub_mem {V : Type} {subs : List (String × V)} {k : String} {v : V}
    (h : lookupSub subs k = some v) : (k, v) ∈ subs := by
  induction subs with
  | nil => simp [lookupSub] at h
  | cons p rest ih =>
    rw [lookupSub_cons] at h
    by_cases hp : p.1 = k
    · rw [if_pos hp] at h
      have hpv : p = (k, v) := by cases p; simp_all
      rw [← hpv]
      exact List.mem_cons_self _ _
    · rw [if_neg hp] at h
      exact List.mem_cons_of_mem _ (ih h)

theorem lookupSub_of_mem {V : Type} {subs : List (String × V)} {k : String} {v : V}
    (hmem : (k, v) ∈ subs) (hnd : (subs.map Prod.fst).Nodup) :
    lookupSub subs k = some v := by
  induction subs with
  | nil => cases hmem
  | cons p rest ih =>
    simp only [List.map_cons, List.nodup_cons] at hnd
    rw [lookupSub_cons]
    rcases List.mem_cons.mp hmem with h | h
    · subst h
      simp
    · have hne : p.1 ≠ k := fun he =>
        hnd.1 (he ▸ List.mem_map.mpr ⟨(k, v), h, rfl⟩)
      rw [if_neg hne]
      exact ih h hnd.2

theorem lookupSub_isSome_of_mem_keys {V : Type} {subs : List (String × V)}
    {k : String} (h : k ∈ getSubscriptionKeys subs) :
    ∃ v, lookupSub subs k = some v := by
  induction subs with
  | nil => simp [getSubscriptionKeys] at h
  | cons p rest ih =>
    rw [lookupSub_cons]
    by_cases he : p.1 = k
    · exact ⟨p.2, by rw [if_pos he]⟩
    · have h' : k ∈ getSubscriptionKeys rest := by
        simp only [getSubscriptionKeys, List.map_cons, List.mem_cons] at h
        tauto
      obtain ⟨v, hv⟩ := ih h'
      exact ⟨v, by rw [if_neg he]; exact hv⟩

/-! ## Lemmas about the grouping machinery -/

section Grouping

variable {α β γ : Type} [DecidableEq β]

theorem lookupKey_cons {δ : Type} (p : β × δ) (rest : List (β × δ)) (b : β) :
    lookupKey (p :: rest) b = if p.1 = b then some p.2 else lookupKey rest b := by
  by_cases h : p.1 = b <;> simp [lookupKey, List.find?_cons, h]

theorem insertGrouped_cons_ne (p : β × List γ) (rest : List (β × List γ))
    (a : β) (b : γ) (hpa : p.1 ≠ a) :
    insertGrouped (p :: rest) a b = p :: insertGrouped rest a b := by
  unfold insertGrouped
  by_cases hr : (rest.any fun q => q.1 = a) = true
  · have hany : ((p :: rest).any fun q => q.1 = a) = true := by
      simp only [List.any_cons, hr, Bool.or_true]
    rw [if_pos hany, if_pos hr, List.map_cons, if_neg hpa]
  · rw [Bool.not_eq_true] at hr
    have hany : ((p :: rest).any fun q => q.1 = a) = false := by
      rw [List.any_cons, Bool.or_eq_false_iff]
      exact ⟨by simpa using hpa, hr⟩
    rw [if_neg (by simp [hany]), if_neg (by simp [hr]), List.cons_append]

theorem lookupKey_map_append (rest : List (β × List γ)) (a b' : β) (b : γ)
    (hb' : b' ≠ a) :
    lookupKey (rest.map fun p => if p.1 = a then (p.1, p.2 ++ [b]) else p) b' =
      lookupKey rest b' := by
  induction rest with
  | nil => rfl
  | cons q qs ih =>
    rw [List.map_cons]
    by_cases hqa : q.1 = a
    · have hqb : q.1 ≠ b' := by rw [hqa]; exact fun he => hb' he.symm
      simp only [if_pos hqa, lookupKey_cons, if_neg hqb]
      exact ih
    · simp only [if_neg hqa, lookupKey_cons]
      by_cases hqb : q.1 = b'
      · rw [if_pos hqb, if_pos hqb]
      · rw [if_neg hqb, if_neg hqb]
        exact ih

theorem insertGrouped_lookup (acc : List (β × List γ)) (a : β) (b : γ) (b' : β) :
    lookupKey (insertGrouped acc a b) b' =
      if b' = a then some ((lookupKey acc a).getD [] ++ [b])
      else lookupKey acc b' := by
  induction acc with
  | nil =>
    by_cases h : b' = a
    · subst h
      simp [insertGrouped, lookupKey, List.find?]
    · simp [insertGrouped, lookupKey, List.find?, Ne.symm h, h]
  | cons p rest ih =>
    by_cases hpa : p.1 = a
    · have hany : ((p :: rest).any fun q => q.1 = a) = true := by
        simp [List.any_cons, hpa]
      unfold insertGrouped
      rw [if_pos (by simp [hany]), List.map_cons, if_pos hpa]
      by_cases hb' : b' = a
      · subst hb'
        simp [lookupKey_cons, hpa]
      · have hpb : p.1 ≠ b' := by rw [hpa]; exact fun he => hb' he.symm
        simp only [lookupKey_cons, if_neg hpb, if_neg hb']
        exact lookupKey_map_append rest a b' b hb'
    · rw [insertGrouped_cons_ne p rest a b hpa]
      by_cases hb' : b' = a
      · subst hb'
        simp only [lookupKey_cons, if_neg hpa, ih, if_pos rfl]
      · by_cases hpb : p.1 = b'
        · simp only [lookupKey_cons, if_pos hpb, ih, if_neg hb']
        · simp only [lookupKey_cons, if_neg hpb, ih, if_neg hb']

theorem insertGrouped_keys (acc : List (β × List γ)) (a : β) (b : γ) :
    (insertGrouped acc a b).map Prod.fst =
      if a ∈ acc.map Prod.fst then acc.map Prod.fst
      else acc.map Prod.fst ++ [a] := by
  unfold insertGrouped
  by_cases h : a ∈ acc.map Prod.fst
  · have hany : (acc.any fun p => p.1 = a) = true := by
      simp only [List.any_eq_true, decide_eq_true_eq]
      obtain ⟨p, hp, hpa⟩ := List.mem_map.mp h
      exact ⟨p, hp, hpa⟩
    rw [if_pos hany, if_pos h, List.map_map]
    apply List.map_congr_left
    intro p _
    by_cases hpa : p.1 = a <;> simp [hpa]
  · have hany : (acc.any fun p => p.1 = a) = false := by
      simp only [List.any_eq_false, decide_eq_true_eq]
      intro p hp hpa
      exact h (List.mem_map.mpr ⟨p, hp, hpa⟩)
    rw [if_neg (by simp [hany]), if_neg h, List.map_append]
    rfl

variable {α : Type} [DecidableEq γ] (classify : α → Option (β × γ))

theorem groupBy?_foldl_lookup (l : List α) (acc : List (β × List γ)) (b : β) :
    lookupKey
        (l.foldl
          (fun acc x =>
            match classify x with
            | none => acc
            | some bc => insertGrouped acc bc.1 bc.2)
          acc)
        b =
      match lookupKey acc b with
      | some cs =>
        some (cs ++ groupProj classify b l)
      | none =>
        if groupProj classify b l = [] then none else some (groupProj classify b l) := by
  induction l generalizing acc with
  | nil =>
    simp only [List.foldl_nil, groupProj, List.filterMap_nil]
    cases lookupKey acc b <;> simp
  | cons x l' ih =>
    rw [List.foldl_cons]
    cases hx : classify x with
    | none =>
      rw [ih]
      have hp : groupProj classify b (x :: l') = groupProj classify b l' := by
        simp [groupProj, List.filterMap_cons, hx]
      rw [hp]
    | some bc =>
      by_cases hb : bc.1 = b
      · have hp : groupProj classify b (x :: l') = bc.2 :: groupProj classify b l' := by
          simp [groupProj, List.filterMap_cons, hx, hb]
        rw [hp, ih, insertGrouped_lookup, if_pos hb.symm]
        cases hacc : lookupKey acc b with
        | none =>
          rw [hb]
          simp [hacc]
        | some cs =>
          rw [hb]
          simp [hacc]
      · have hp : groupProj classify b (x :: l') = groupProj classify b l' := by
          simp [groupProj, List.filterMap_cons, hx, hb]
        rw [hp, ih, insertGrouped_lookup,
          if_neg (fun he : b = bc.1 => hb he.symm)]

theorem groupBy?_lookup (l : List α) (b : β) :
    lookupKey (groupBy? classify l) b =
      if groupProj classify b l = [] then none
      else some (groupProj classify b l) := by
  unfold groupBy?
  rw [groupBy?_foldl_lookup]
  rfl

theorem groupBy?_foldl_keys_nodup (l : List α) (acc : List (β × List γ))
    (hacc : (acc.map Prod.fst).Nodup) :
    ((l.foldl
        (fun acc x =>
          match classify x with
          | none => acc
          | some bc => insertGrouped acc bc.1 bc.2)
        acc).map Prod.fst).Nodup := by
  induction l generalizing acc with
  | nil => simpa using hacc
  | cons x l' ih =>
    rw [List.foldl_cons]
    cases hx : classify x with
    | none => exact ih acc hacc
    | some bc =>
      apply ih
      rw [insertGrouped_keys]
      by_cases hmem : bc.1 ∈ acc.map Prod.fst
      · rwa [if_pos hmem]
      · rw [if_neg hmem, List.nodup_append]
        refine ⟨hacc, List.nodup_singleton _, fun y hy hy' => ?_⟩
        rw [List.mem_singleton] at hy'
        subst hy'
        exact hmem hy

theorem groupBy?_keys_nodup (l : List α) :
    ((groupBy? classify l).map Prod.fst).Nodup :=
  groupBy?_foldl_keys_nodup classify l [] (by simp)

theorem lookupKey_of_mem {δ : Type} {l : List (β × δ)} {b : β} {d : δ}
    (hmem : (b, d) ∈ l) (hnd : (l.map Prod.fst).Nodup) :
    lookupKey l b = some d := by
  induction l with
  | nil => cases hmem
  | cons p rest ih =>
    simp only [List.map_cons, List.nodup_cons] at hnd
    rw [lookupKey_cons]
    rcases List.mem_cons.mp hmem with h | h
    · subst h
      simp
    · have hne : p.1 ≠ b := fun he =>
        hnd.1 (he ▸ List.mem_map.mpr ⟨(b, d), h, rfl⟩)
      rw [if_neg hne]
      exact ih h hnd.2

theorem mem_of_lookupKey {δ : Type} {l : List (β × δ)} {b : β} {d : δ}
    (h : lookupKey l b = some d) : (b, d) ∈ l := by
  induction l with
  | nil => simp [lookupKey] at h
  | cons p rest ih =>
    rw [lookupKey_cons] at h
    by_cases hp : p.1 = b
    · rw [if_pos hp] at h
      have : p = (b, d) := by cases p; simp_all
      rw [← this]
      exact List.mem_cons_self _ _
    · rw [if_neg hp] at h
      exact List.mem_cons_of_mem _ (ih h)

theorem groupBy?_mem_iff (l : List α) (b : β) (cs : List γ) :
    (b, cs) ∈ groupBy? classify l ↔
      cs = groupProj classify b l ∧ cs ≠ [] := by
  constructor
  · intro hmem
    have hl := lookupKey_of_mem hmem (groupBy?_keys_nodup classify l)
    rw [groupBy?_lookup] at hl
    by_cases hp : groupProj classify b l = []
    · rw [if_pos hp] at hl
      cases hl
    · rw [if_neg hp] at hl
      cases hl
      exact ⟨rfl, hp⟩
  · rintro ⟨rfl, hne⟩
    apply mem_of_lookupKey
    rw [groupBy?_lookup, if_neg hne]

theorem groupProj_mem_iff (l : List α) (b : β) (c : γ) :
    c ∈ groupProj classify b l ↔ ∃ x ∈ l, classify x = some (b, c) := by
  simp only [groupProj, List.mem_filterMap]
  constructor
  · rintro ⟨x, hx, hc⟩
    refine ⟨x, hx, ?_⟩
    cases hcl : classify x with
    | none => simp [hcl] at hc
    | some bc =>
      simp only [hcl] at hc
      by_cases hb : bc.1 = b
      · simp only [if_pos hb] at hc
        cases hc
        cases bc
        simp_all
      · simp [if_neg hb] at hc
  · rintro ⟨x, hx, hc⟩
    exact ⟨x, hx, by rw [hc]; simp⟩

end Grouping

/-! ## Claim C1 -/

/-- C1: for every topic registry and every `Subscribe(markets, bufferSize?)`
call, if at least one requested key is already present in the registry, the
call returns the "subscription already active" error naming an offending
market, and the registry is left unchanged — no key is added, no channel is
created or closed, and no control message is enqueued (the returned state is
the input state and the effect trace is empty). -/
theorem C1_subscribe_already_active (channelName : String) (st : RegState)
    (markets : List String) (buffSize : Option Nat)
    (h : ∃ m ∈ getUniqueMarkets markets, m ∈ getSubscriptionKeys st.subs) :
    ∃ m ∈ getUniqueMarkets markets,
      m ∈ getSubscriptionKeys st.subs ∧
      genSubscribe channelName st markets buffSize =
        ⟨.error (.subscriptionAlreadyActive m), st, []⟩ := by
  obtain ⟨m0, hm0, hk0⟩ := h
  cases hr : requireNoSubscription st.subs (getUniqueMarkets markets) with
  | none =>
    exact absurd hk0 ((requireNoSubscription_eq_none _ _).mp hr m0 hm0)
  | some m =>
    obtain ⟨hm, hk⟩ := requireNoSubscription_eq_some hr
    exact ⟨m, hm, hk, by simp [genSubscribe, hr]⟩

/-- Witness for C1 at a concrete registry holding `"ETH-EUR"`. -/
theorem C1_subscribe_already_active_witness :
    ∃ m ∈ getUniqueMarkets ["ETH-EUR"],
      m ∈ getSubscriptionKeys
          (RegState.mk [("ETH-EUR", ⟨0, "ETH-EUR", 1, 50, 0, 50⟩)] 1 2).subs ∧
      genSubscribe "ticker" (RegState.mk [("ETH-EUR", ⟨0, "ETH-EUR", 1, 50, 0, 50⟩)] 1 2)
          ["ETH-EUR"] none =
        ⟨.error (.subscriptionAlreadyActive m),
         RegState.mk [("ETH-EUR", ⟨0, "ETH-EUR", 1, 50, 0, 50⟩)] 1 2, []⟩ :=
  C1_subscribe_already_active "ticker" _ ["ETH-EUR"] none (by decide)

/-! ## Claim C5 -/

/-- C5: for every topic registry and every `Unsubscribe(markets)` call, if at
least one requested key is not currently present, the call returns the "no
active subscription" error naming an offending market and has no effect at all:
no key removed, no channel closed, no control message enqueued. -/
theorem C5_unsubscribe_not_active (channelName : String) (st : RegState)
    (markets : List String)
    (h : ∃ m ∈ getUniqueMarkets markets, m ∉ getSubscriptionKeys st.subs) :
    ∃ m ∈ getUniqueMarkets markets,
      m ∉ getSubscriptionKeys st.subs ∧
      genUnsubscribe channelName st markets =
        ⟨some (.noSubscriptionActive m), st, []⟩ := by
  obtain ⟨m0, hm0, hk0⟩ := h
  cases hr : requireSubscription st.subs (getUniqueMarkets markets) with
  | none =>
    exact absurd ((requireSubscription_eq_none _ _).mp hr m0 hm0) hk0
  | some m =>
    obtain ⟨hm, hk⟩ := requireSubscription_eq_some hr
    exact ⟨m, hm, hk, by simp [genUnsubscribe, hr]⟩

/-- Witness for C5 at a registry holding only `"ETH-EUR"`, asked to
unsubscribe `"BTC-EUR"`. -/
theorem C5_unsubscribe_not_active_witness :
    ∃ m ∈ getUniqueMarkets ["BTC-EUR"],
      m ∉ getSubscriptionKeys
          (RegState.mk [("ETH-EUR", ⟨0, "ETH-EUR", 1, 50, 0, 50⟩)] 1 2).subs ∧
      genUnsubscribe "ticker" (RegState.mk [("ETH-EUR", ⟨0, "ETH-EUR", 1, 50, 0, 50⟩)] 1 2)
          ["BTC-EUR"] =
        ⟨some (.noSubscriptionActive m),
         RegState.mk [("ETH-EUR", ⟨0, "ETH-EUR", 1, 50, 0, 50⟩)] 1 2, []⟩ :=
  C5_unsubscribe_not_active "ticker" _ ["BTC-EUR"] (by decide)

/-! ## Claim C10 -/

/-- C10: for every topic registry, `Subscribe` with an empty market list
succeeds: nil error, it returns the freshly created outbound channel — whose
recorded capacity is `size * 0 = 0` — registers no key, starts no relay task,
and enqueues exactly one subscribe control message with an empty market list. -/
theorem C10_empty_subscribe (channelName : String) (st : RegState)
    (buffSize : Option Nat) :
    genSubscribe channelName st [] buffSize =
      ⟨.ok st.nextChan,
       { subs := st.subs, nextId := st.nextId + 1, nextChan := st.nextChan + 1 },
       [Effect.chanCreated st.nextChan 0,
        Effect.msgSent (newWebSocketMessage "subscribe" channelName [])]⟩ := by
  simp [genSubscribe, getUniqueMarkets, requireNoSubscription]

/-! ## Claim C9 -/

/-- C9: duplicate markets in the input of `Subscribe` / `Unsubscribe` are
collapsed by `getUniqueMarkets` before any precondition check or mutation: the
calls behave exactly as with the deduplicated list, so subscribing `[m, m]`
with `m` fresh does not fail with "subscription already active", registers
exactly one subscription for `m`, and the subscribe message lists `m` once. -/
theorem C9_duplicates_collapsed (channelName : String) (st : RegState)
    (buffSize : Option Nat) (m : String)
    (h : m ∉ getSubscriptionKeys st.subs) :
    genSubscribe channelName st [m, m] buffSize =
      genSubscribe channelName st [m] buffSize ∧
    genUnsubscribe channelName st [m, m] = genUnsubscribe channelName st [m] ∧
    genSubscribe channelName st [m, m] buffSize =
      ⟨.ok st.nextChan,
       { subs := st.subs ++
           [(m, ⟨st.nextId, m, st.nextChan + 1, buffSize.getD defaultBuffSize,
             st.nextChan, buffSize.getD defaultBuffSize * 1⟩)]
         nextId := st.nextId + 1
         nextChan := st.nextChan + 1 + 1 },
       [Effect.chanCreated st.nextChan (buffSize.getD defaultBuffSize * 1),
        Effect.chanCreated (st.nextChan + 1) (buffSize.getD defaultBuffSize),
        Effect.relayStarted (st.nextChan + 1) st.nextChan,
        Effect.msgSent (newWebSocketMessage "subscribe" channelName [m])]⟩ := by
  have hd : getUniqueMarkets [m, m] = [m] := by
    simp [getUniqueMarkets]
  have hd1 : getUniqueMarkets [m] = [m] := by
    simp [getUniqueMarkets]
  have hr : requireNoSubscription st.subs [m] = none := by
    rw [requireNoSubscription_eq_none]
    intro x hx
    rw [List.mem_singleton] at hx
    subst hx
    exact h
  refine ⟨?_, ?_, ?_⟩
  · unfold genSubscribe
    rw [hd, hd1]
  · unfold genUnsubscribe
    rw [hd, hd1]
  · simp only [genSubscribe, hd, hr]
    simp [List.enum, List.enumFrom]

/-- Witness for C9 at the empty ticker registry and market `"ETH-EUR"`. -/
theorem C9_duplicates_collapsed_witness :
    genSubscribe "ticker" (RegState.mk [] 0 0) ["ETH-EUR", "ETH-EUR"] none =
      genSubscribe "ticker" (RegState.mk [] 0 0) ["ETH-EUR"] none ∧
    genUnsubscribe "ticker" (RegState.mk [] 0 0) ["ETH-EUR", "ETH-EUR"] =
      genUnsubscribe "ticker" (RegState.mk [] 0 0) ["ETH-EUR"] ∧
    genSubscribe "ticker" (RegState.mk [] 0 0) ["ETH-EUR", "ETH-EUR"] none =
      ⟨.ok 0,
       { subs := [] ++ [("ETH-EUR", ⟨0, "ETH-EUR", 0 + 1, 50, 0, 50 * 1⟩)]
         nextId := 0 + 1
         nextChan := 0 + 1 + 1 },
       [Effect.chanCreated 0 (50 * 1),
        Effect.chanCreated (0 + 1) 50,
        Effect.relayStarted (0 + 1) 0,
        Effect.msgSent (newWebSocketMessage "subscribe" "ticker" ["ETH-EUR"])]⟩ :=
  C9_duplicates_collapsed "ticker" (RegState.mk [] 0 0) none "ETH-EUR" (by decide)

/-! ## Claim C6 (corrected) -/

/-- The channel-creation trace of the per-market loop of `Subscribe`. -/
theorem createdChans_perMarket (l : List (Nat × String)) (base : Nat)
    (size : Nat) (outchn : Nat) :
    createdChans ((l.map fun im =>
        [Effect.chanCreated (base + 1 + im.1) size,
         Effect.relayStarted (base + 1 + im.1) outchn]).flatten) =
      l.map fun im => (base + 1 + im.1, size) := by
  induction l with
  | nil => rfl
  | cons x xs ih =>
    simp only [List.map_cons, List.flatten_cons, createdChans,
      List.filterMap_append] at ih ⊢
    rw [ih]
    rfl

/-- The message trace of the per-market loop of `Subscribe` is empty. -/
theorem sentMsgs_perMarket (l : List (Nat × String)) (base : Nat)
    (size : Nat) (outchn : Nat) :
    sentMsgs ((l.map fun im =>
        [Effect.chanCreated (base + 1 + im.1) size,
         Effect.relayStarted (base + 1 + im.1) outchn]).flatten) = [] := by
  induction l with
  | nil => rfl
  | cons x xs ih =>
    simp only [List.map_cons, List.flatten_cons, sentMsgs,
      List.filterMap_append] at ih ⊢
    rw [ih]
    rfl

/-- C6 (amended): on a successful `Subscribe` with `n` distinct requested keys,
the `part_032` pattern (ticker, and the other handlers of that version) creates
exactly one inbound channel per key with capacity `size` and one shared
outbound channel with capacity `size * n`, and enqueues exactly one subscribe
message listing all requested keys; the book handler of `src/ws/book.go`
creates the same per-key inbound channels but its shared outbound channel has
capacity `size`, **not** `size * n`. -/
theorem C6_subscribe_channels (channelName : String) (st : RegState)
    (markets : List String) (buffSize : Option Nat)
    (h : requireNoSubscription st.subs (getUniqueMarkets markets) = none) :
    (genSubscribe channelName st markets buffSize).result = .ok st.nextChan ∧
    createdChans (genSubscribe channelName st markets buffSize).effects =
      (st.nextChan,
        buffSize.getD defaultBuffSize * (getUniqueMarkets markets).length) ::
      (getUniqueMarkets markets).enum.map
        (fun im => (st.nextChan + 1 + im.1, buffSize.getD defaultBuffSize)) ∧
    sentMsgs (genSubscribe channelName st markets buffSize).effects =
      [newWebSocketMessage "subscribe" channelName (getUniqueMarkets markets)] ∧
    (bookSubscribeWsBookGo st markets buffSize).result = .ok st.nextChan ∧
    createdChans (bookSubscribeWsBookGo st markets buffSize).effects =
      (st.nextChan, buffSize.getD defaultBuffSize) ::
      (getUniqueMarkets markets).enum.map
        (fun im => (st.nextChan + 1 + im.1, buffSize.getD defaultBuffSize)) := by
  refine ⟨?_, ?_, ?_, ?_, ?_⟩
  · simp [genSubscribe, h]
  · simp only [genSubscribe, h]
    simp only [createdChans, List.filterMap_cons, List.filterMap_append]
    have := createdChans_perMarket ((getUniqueMarkets markets).enum) st.nextChan
      (buffSize.getD defaultBuffSize) st.nextChan
    simp only [createdChans] at this
    rw [this]
    simp
  · simp only [genSubscribe, h]
    simp only [sentMsgs, List.filterMap_cons, List.filterMap_append]
    have := sentMsgs_perMarket ((getUniqueMarkets markets).enum) st.nextChan
      (buffSize.getD defaultBuffSize) st.nextChan
    simp only [sentMsgs] at this
    rw [this]
    simp
  · simp [bookSubscribeWsBookGo, h]
  · simp only [bookSubscribeWsBookGo, h]
    simp only [createdChans, List.filterMap_cons, List.filterMap_append]
    have := createdChans_perMarket ((getUniqueMarkets markets).enum) st.nextChan
      (buffSize.getD defaultBuffSize) st.nextChan
    simp only [createdChans] at this
    rw [this]
    simp

/-- Witness for C6 (amended) at the empty registry, two markets, buffer 10. -/
theorem C6_subscribe_channels_witness :
    (genSubscribe "ticker" (RegState.mk [] 0 0) ["ETH-EUR", "BTC-EUR"] (some 10)).result =
      .ok 0 ∧
    createdChans (genSubscribe "ticker" (RegState.mk [] 0 0)
        ["ETH-EUR", "BTC-EUR"] (some 10)).effects =
      (0, (some 10 : Option Nat).getD defaultBuffSize *
            (getUniqueMarkets ["ETH-EUR", "BTC-EUR"]).length) ::
      (getUniqueMarkets ["ETH-EUR", "BTC-EUR"]).enum.map
        (fun im => (0 + 1 + im.1, (some 10 : Option Nat).getD defaultBuffSize)) ∧
    sentMsgs (genSubscribe "ticker" (RegState.mk [] 0 0)
        ["ETH-EUR", "BTC-EUR"] (some 10)).effects =
      [newWebSocketMessage "subscribe" "ticker" (getUniqueMarkets ["ETH-EUR", "BTC-EUR"])] ∧
    (bookSubscribeWsBookGo (RegState.mk [] 0 0) ["ETH-EUR", "BTC-EUR"] (some 10)).result =
      .ok 0 ∧
    createdChans (bookSubscribeWsBookGo (RegState.mk [] 0 0)
        ["ETH-EUR", "BTC-EUR"] (some 10)).effects =
      (0, (some 10 : Option Nat).getD defaultBuffSize) ::
      (getUniqueMarkets ["ETH-EUR", "BTC-EUR"]).enum.map
        (fun im => (0 + 1 + im.1, (some 10 : Option Nat).getD defaultBuffSize)) :=
  C6_subscribe_channels "ticker" (RegState.mk [] 0 0) ["ETH-EUR", "BTC-EUR"]
    (some 10) (by decide)

/-- Counterexample to C6 as stated: `Subscribe` of the book handler in
`src/ws/book.go` on two distinct markets with bufferSize 10 creates its shared
outbound channel (the returned channel, id 0) with capacity 10, not
`10 * 2 = 20`. -/
theorem C6_counterexample :
    (0, 10) ∈ createdChans (bookSubscribeWsBookGo (RegState.mk [] 0 0)
        ["ETH-EUR", "BTC-EUR"] (some 10)).effects ∧
    (0, 10 * 2) ∉ createdChans (bookSubscribeWsBookGo (RegState.mk [] 0 0)
        ["ETH-EUR", "BTC-EUR"] (some 10)).effects := by
  decide

/-! ## Claim C7 (corrected) -/

/-- C7 (amended): for frames whose discriminator is not `subscribed` /
`unsubscribed`, the switch-based dispatcher of `src/ws/wsclient.go` invokes
`handleMessage` exactly on the registered handlers of the topic kind matching
the discriminator; the dispatcher of `src/unnamed/part_031`, by contrast,
hands every such frame to **every** registered handler — the book and account
handlers then ignore frames with a non-matching discriminator, but the ticker
(as well as ticker24h and candles) handler attempts the final typed decode of
every frame it is handed. -/
theorem C7_routing (handlers : List TopicKind) (e : WsEvent) :
    (∀ k, k ∈ handleEventSwitch handlers e ↔
      (k ∈ handlers ∧ topicOfEvent e = some k)) ∧
    handleEventBroadcast handlers e =
      (if e = .subscribed ∨ e = .unsubscribed then [] else handlers) ∧
    (attemptsTypedDecode .book e = true ↔ e = .book) ∧
    (attemptsTypedDecode .account e = true ↔
      (e = .auth ∨ e = .order ∨ e = .fill)) ∧
    attemptsTypedDecode .ticker e = true ∧
    attemptsTypedDecode .ticker24h e = true ∧
    attemptsTypedDecode .candles e = true := by
  refine ⟨fun k => ?_, ?_, ?_, ?_, ?_, ?_, ?_⟩ <;>
    cases e <;>
    first
      | (cases k <;>
          simp [handleEventSwitch, topicOfEvent, List.mem_filter, and_comm])
      | simp [handleEventBroadcast, attemptsTypedDecode]

/-- Counterexample to C7 as stated: with a ticker and a book handler
registered, the `part_031` dispatcher hands a frame carrying the `book`
discriminator to the ticker handler as well, and the ticker handler attempts
the typed decode of that frame, although its topic kind does not match the
discriminator. -/
theorem C7_counterexample :
    TopicKind.ticker ∈
      handleEventBroadcast [TopicKind.ticker, TopicKind.book] WsEvent.book ∧
    attemptsTypedDecode .ticker .book = true ∧
    topicOfEvent .book ≠ some TopicKind.ticker := by
  decide

/-! ## Claim C8 -/

/-- C8: for every received authentication-result frame, `handleAuthMessage`
pushes exactly one boolean into the rendezvous channel and changes nothing
else: the decoded `authenticated` value when the frame decodes as an
`AuthEvent`, and `false` when the decode fails. -/
theorem C8_auth_result_push (ast : AccountState) (frame : Json) :
    (accountHandleAuthMessage ast frame).1 = ast ∧
    (accountHandleAuthMessage ast frame).2.length = 1 ∧
    (∀ ev, decodeAuthEvent frame = .ok ev →
      (accountHandleAuthMessage ast frame).2 = [Effect.authPushed ev.authenticated]) ∧
    (∀ err, decodeAuthEvent frame = .error err →
      (accountHandleAuthMessage ast frame).2 = [Effect.authPushed false]) := by
  refine ⟨rfl, rfl, fun ev hev => ?_, fun err herr => ?_⟩
  · simp [accountHandleAuthMessage, hev]
  · simp [accountHandleAuthMessage, herr]

/-- Witness for C8: a well-formed authentication frame with
`authenticated: true` pushes exactly `true`, and a malformed frame (a bare
string) pushes exactly `false`. -/
theorem C8_auth_result_push_witness :
    (accountHandleAuthMessage (AccountState.mk "k" "s" false [] 0 0)
        (Json.obj [("event", Json.str "authenticate"),
                   ("authenticated", Json.bool true)])).2 =
      [Effect.authPushed true] ∧
    (accountHandleAuthMessage (AccountState.mk "k" "s" false [] 0 0)
        (Json.str "oops")).2 = [Effect.authPushed false] :=
  ⟨(C8_auth_result_push _ _).2.2.1 ⟨"authenticate", true⟩ rfl,
   (C8_auth_result_push _ _).2.2.2 "cannot unmarshal into Go value of type AuthEvent" rfl⟩

/-! ## Claim C4 -/

/-- C4: after a successful reconnect, each registry's `reconnect()` enqueues
subscribe messages covering exactly its current key set and does nothing else:
the single-stream registries send one message listing all current keys; the
candles registry sends exactly one message per distinct interval, listing all
markets subscribed at that interval (with every registered (market, interval)
key covered); the account registry first resets `authenticated`, enqueues one
authenticate message, and sends its subscribe message (with the current key
set) only when re-authentication succeeds.  No reconnect creates, closes or
replaces any channel, and no registry state other than the account
`authenticated` flag changes, so consumer channel handles stay valid. -/
theorem C4_reconnect_replays (channelName : String) (st : RegState)
    (ast : AccountState) (now : Int) (authReply : Bool) :
    genReconnect channelName st =
      (st, [Effect.msgSent (newWebSocketMessage "subscribe" channelName
              (getSubscriptionKeys st.subs))]) ∧
    candlesReconnect st =
      (st, (getIntervalMarkets st.subs).map fun im =>
        Effect.msgSent (newCandleWebSocketMessage "subscribe" im.2 im.1)) ∧
    ((getIntervalMarkets st.subs).map Prod.fst).Nodup ∧
    (∀ i ms, (i, ms) ∈ getIntervalMarkets st.subs ↔
      (ms = marketsAtInterval st.subs i ∧ ms ≠ [])) ∧
    (∀ i m, m ∈ marketsAtInterval st.subs i ↔
      ∃ k ∈ getSubscriptionKeys st.subs, parseKey k = (m, i)) ∧
    accountReconnect ast now authReply =
      ({ ast with authenticated := authReply },
       Effect.msgSent (newWebSocketAuthMessage ast.apiKey ast.apiSecret now) ::
         (if authReply then
            [Effect.msgSent (newWebSocketMessage "subscribe" "account"
              (getSubscriptionKeys ast.subs))]
          else [])) ∧
    (∀ e ∈ (genReconnect channelName st).2, ∃ msg, e = Effect.msgSent msg) ∧
    (∀ e ∈ (candlesReconnect st).2, ∃ msg, e = Effect.msgSent msg) ∧
    (∀ e ∈ (accountReconnect ast now authReply).2, ∃ msg, e = Effect.msgSent msg) := by
  refine ⟨rfl, rfl, ?_, ?_, ?_, ?_, ?_, ?_, ?_⟩
  · exact groupBy?_keys_nodup _ _
  · intro i ms
    exact groupBy?_mem_iff _ _ i ms
  · intro i m
    rw [marketsAtInterval, groupProj_mem_iff]
    constructor
    · rintro ⟨p, hp, hc⟩
      refine ⟨p.1, List.mem_map.mpr ⟨p, hp, rfl⟩, ?_⟩
      have h2 : ((parseKey p.1).2, (parseKey p.1).1) = (i, m) := Option.some.inj hc
      have h3 := Prod.ext_iff.mp h2
      rw [Prod.ext_iff]
      exact ⟨h3.2, h3.1⟩
    · rintro ⟨k, hk, hpk⟩
      obtain ⟨p, hp, rfl⟩ := List.mem_map.mp hk
      refine ⟨p, hp, ?_⟩
      rw [hpk]
  · cases ast
    cases authReply <;> rfl
  · intro e he
    simp only [genReconnect, List.mem_singleton] at he
    exact ⟨_, he⟩
  · intro e he
    simp only [candlesReconnect] at he
    obtain ⟨im, _, rfl⟩ := List.mem_map.mp he
    exact ⟨_, rfl⟩
  · intro e he
    cases authReply
    · simp [accountReconnect, accountEnsureAuth] at he
      subst he
      exact ⟨_, rfl⟩
    · simp [accountReconnect, accountEnsureAuth] at he
      rcases he with rfl | rfl <;> exact ⟨_, rfl⟩

/-! ## Claim C3 -/

/-- Phase 1 of the account deletion emits only channel closes. -/
theorem accountInChanCloses_shape (subs : List (String × AccountSub))
    (keys : List String) :
    ∀ e ∈ accountInChanCloses subs keys, ∃ ch, e = Effect.chanClosed ch := by
  intro e he
  rw [accountInChanCloses, List.mem_flatten] at he
  obtain ⟨l, hl, hm⟩ := he
  rw [List.mem_map] at hl
  obtain ⟨k, _, rfl⟩ := hl
  cases h' : lookupSub subs k <;> rw [h'] at hm
  · simp at hm
  · rw [List.mem_cons, List.mem_singleton] at hm
    rcases hm with rfl | rfl
    · exact ⟨_, rfl⟩
    · exact ⟨_, rfl⟩

/-- Phase 2 of the account deletion emits only channel closes. -/
theorem accountOutChanCloses_shape (subs : List (String × AccountSub))
    (keys : List String) :
    ∀ e ∈ accountOutChanCloses subs keys, ∃ ch, e = Effect.chanClosed ch := by
  intro e he
  rw [accountOutChanCloses, List.mem_flatten] at he
  obtain ⟨l, hl, hm⟩ := he
  rw [List.mem_map] at hl
  obtain ⟨gks, _, rfl⟩ := hl
  obtain ⟨g, l⟩ := gks
  cases l with
  | nil => simp at hm
  | cons k ks =>
    dsimp only at hm
    by_cases hc : accountCountId subs g = (k :: ks).length
    · rw [if_pos hc] at hm
      cases h' : lookupSub subs k <;> rw [h'] at hm
      · simp at hm
      · rw [List.mem_cons, List.mem_singleton] at hm
        rcases hm with rfl | rfl
        · exact ⟨_, rfl⟩
        · exact ⟨_, rfl⟩
    · rw [if_neg hc] at hm
      simp at hm

/-- The per-market channel effects of the account `Subscribe` contain no
control message. -/
theorem accountPerMarket_no_msg (l : List (Nat × String)) (base size : Nat)
    (oo fo : Nat) (m : WebSocketMessage) :
    Effect.msgSent m ∉
      ((l.map fun im =>
        [Effect.chanCreated (base + 2 + 2 * im.1) size,
         Effect.chanCreated (base + 3 + 2 * im.1) size,
         Effect.relayStarted (base + 2 + 2 * im.1) oo,
         Effect.relayStarted (base + 3 + 2 * im.1) fo]).flatten) := by
  intro hm
  rw [List.mem_flatten] at hm
  obtain ⟨x, hx, hmx⟩ := hm
  rw [List.mem_map] at hx
  obtain ⟨im, _, rfl⟩ := hx
  simp at hmx

/-- C3: an account `Subscribe` or `Unsubscribe` issued while unauthenticated
(with the precondition on the requested keys satisfied) first enqueues exactly
one authenticate control message, before any other message; the caller then
blocks on the rendezvous (modelled by `authReply`).  When the delivered result
is `false`, the call returns `errAuthenticationFailed`, no subscribe /
unsubscribe message for the original intent is ever enqueued, no channel is
created or closed, and the subscription map is unchanged. -/
theorem C3_auth_gate (ast : AccountState) (ms1 ms2 : List String)
    (buffSize : Option Nat) (now : Int)
    (hA : ast.authenticated = false)
    (h1 : requireNoSubscription ast.subs (getUniqueMarkets ms1) = none)
    (h2 : requireSubscription ast.subs (getUniqueMarkets ms2) = none) :
    accountSubscribe ast ms1 buffSize now false =
      ⟨.error .authenticationFailed, { ast with authenticated := false },
       [Effect.msgSent (newWebSocketAuthMessage ast.apiKey ast.apiSecret now)]⟩ ∧
    accountUnsubscribe ast ms2 now false =
      ⟨some .authenticationFailed, { ast with authenticated := false },
       [Effect.msgSent (newWebSocketAuthMessage ast.apiKey ast.apiSecret now)]⟩ ∧
    (∀ reply, ∃ rest,
      (accountSubscribe ast ms1 buffSize now reply).effects =
        Effect.msgSent (newWebSocketAuthMessage ast.apiKey ast.apiSecret now) :: rest ∧
      ∀ m, Effect.msgSent m ∈ rest → m.action ≠ "authenticate") ∧
    (∀ reply, ∃ rest,
      (accountUnsubscribe ast ms2 now reply).effects =
        Effect.msgSent (newWebSocketAuthMessage ast.apiKey ast.apiSecret now) :: rest ∧
      ∀ m, Effect.msgSent m ∈ rest → m.action ≠ "authenticate") := by
  refine ⟨?_, ?_, ?_, ?_⟩
  · simp [accountSubscribe, h1, accountEnsureAuth, hA]
  · simp [accountUnsubscribe, h2, accountEnsureAuth, hA]
  · intro reply
    cases reply
    · refine ⟨[], ?_, by simp⟩
      simp [accountSubscribe, h1, accountEnsureAuth, hA]
    · refine
        ⟨Effect.msgSent (newWebSocketMessage "subscribe" "account" (getUniqueMarkets ms1)) ::
          Effect.chanCreated ast.nextChan
            (buffSize.getD defaultBuffSize * (getUniqueMarkets ms1).length) ::
          Effect.chanCreated (ast.nextChan + 1)
            (buffSize.getD defaultBuffSize * (getUniqueMarkets ms1).length) ::
          ((getUniqueMarkets ms1).enum.map fun im =>
            [Effect.chanCreated (ast.nextChan + 2 + 2 * im.1)
               (buffSize.getD defaultBuffSize),
             Effect.chanCreated (ast.nextChan + 3 + 2 * im.1)
               (buffSize.getD defaultBuffSize),
             Effect.relayStarted (ast.nextChan + 2 + 2 * im.1) ast.nextChan,
             Effect.relayStarted (ast.nextChan + 3 + 2 * im.1)
               (ast.nextChan + 1)]).flatten, ?_, ?_⟩
      · simp [accountSubscribe, h1, accountEnsureAuth, hA]
      · intro m hm
        rcases List.mem_cons.mp hm with hm | hm
        · cases hm
          simp [newWebSocketMessage]
        rcases List.mem_cons.mp hm with hm | hm
        · cases hm
        rcases List.mem_cons.mp hm with hm | hm
        · cases hm
        · exact absurd hm (accountPerMarket_no_msg _ _ _ _ _ m)
  · intro reply
    cases reply
    · refine ⟨[], ?_, by simp⟩
      simp [accountUnsubscribe, h2, accountEnsureAuth, hA]
    · refine
        ⟨Effect.msgSent (newWebSocketMessage "unsubscribe" "account" (getUniqueMarkets ms2)) ::
          (accountInChanCloses ast.subs (getUniqueMarkets ms2) ++
           accountOutChanCloses ast.subs (getUniqueMarkets ms2)), ?_, ?_⟩
      · simp [accountUnsubscribe, h2, accountEnsureAuth, hA,
          accountDeleteSubscriptions]
      · intro m hm
        rcases List.mem_cons.mp hm with hm | hm
        · cases hm
          simp [newWebSocketMessage]
        · rcases List.mem_append.mp hm with hm | hm
          · obtain ⟨ch, hch⟩ := accountInChanCloses_shape _ _ _ hm
            cases hch
          · obtain ⟨ch, hch⟩ := accountOutChanCloses_shape _ _ _ hm
            cases hch

/-- Witness for C3: a concrete unauthenticated account registry holding
`"BTC-EUR"`; subscribing `"ETH-EUR"` with a delivered authentication result of
`false` fails with the authentication error, sends only the authenticate
message, and leaves the registry unchanged. -/
theorem C3_auth_gate_witness :
    accountSubscribe (AccountState.mk "key" "secret" false
        [("BTC-EUR", AccountSub.mk 0 "BTC-EUR" 2 3 0 1 50 50)] 1 6)
        ["ETH-EUR"] none 123 false =
      ⟨.error .authenticationFailed,
       { AccountState.mk "key" "secret" false
           [("BTC-EUR", AccountSub.mk 0 "BTC-EUR" 2 3 0 1 50 50)] 1 6 with
           authenticated := false },
       [Effect.msgSent (newWebSocketAuthMessage "key" "secret" 123)]⟩ :=
  (C3_auth_gate (AccountState.mk "key" "secret" false
      [("BTC-EUR", AccountSub.mk 0 "BTC-EUR" 2 3 0 1 50 50)] 1 6)
    ["ETH-EUR"] ["BTC-EUR"] none 123 rfl (by decide) (by decide)).1

/-! ## Claim C2: group-wise deletion of subscriptions -/

theorem isGroupKey_iff (subs : List (String × Sub)) (g : Nat) (k : String) :
    isGroupKey subs g k = true ↔
      ∃ s, lookupSub subs k = some s ∧ s.id = g := by
  unfold isGroupKey
  cases h' : lookupSub subs k <;> simp [h']

/-- The values grouped under id `g` by `deleteSubscriptions` are exactly the
requested keys whose subscription carries id `g`, in request order. -/
theorem groupIds_proj_eq_filter (subs : List (String × Sub)) (keys : List String)
    (g : Nat) :
    groupProj (fun k => (lookupSub subs k).map fun s => (s.id, k)) g keys =
      keys.filter (isGroupKey subs g) := by
  induction keys with
  | nil => rfl
  | cons k ks ih =>
    rw [groupProj, List.filterMap_cons, List.filter_cons]
    rw [groupProj] at ih
    cases h' : lookupSub subs k with
    | none =>
      have hk : isGroupKey subs g k = false := by simp [isGroupKey, h']
      simp [h', hk, ih]
    | some s =>
      by_cases hg : s.id = g
      · have hk : isGroupKey subs g k = true := by simp [isGroupKey, h', hg]
        simp [h', hk, hg, ih]
      · have hk : isGroupKey subs g k = false := by simp [isGroupKey, h', hg]
        simp [h', hk, hg, ih]

theorem groupIds_mem_iff (subs : List (String × Sub)) (keys : List String)
    (g : Nat) (l : List String) :
    (g, l) ∈ groupIds subs keys ↔
      l = keys.filter (isGroupKey subs g) ∧ l ≠ [] := by
  rw [groupIds, groupBy?_mem_iff, groupIds_proj_eq_filter]

theorem countId_eq_length_groupMembers (subs : List (String × Sub)) (g : Nat) :
    countId subs g = (groupMembers subs g).length := by
  simp [countId, groupMembers]

theorem mem_groupMembers_iff (subs : List (String × Sub)) (g : Nat) (m : String) :
    m ∈ groupMembers subs g ↔ ∃ s, (m, s) ∈ subs ∧ s.id = g := by
  simp only [groupMembers, List.mem_map, List.mem_filter]
  constructor
  · rintro ⟨p, ⟨hp, hid⟩, rfl⟩
    exact ⟨p.2, by simpa using hp, by simpa using hid⟩
  · rintro ⟨s, hs, hid⟩
    exact ⟨(m, s), ⟨hs, by simpa using hid⟩, rfl⟩

theorem groupMembers_nodup (subs : List (String × Sub)) (g : Nat)
    (hnd : (subs.map Prod.fst).Nodup) : (groupMembers subs g).Nodup := by
  unfold groupMembers
  exact hnd.sublist ((List.filter_sublist subs).map Prod.fst)

/-- The requested keys of group `g` are current members of group `g`. -/
theorem filter_subset_groupMembers (subs : List (String × Sub))
    (keys : List String) (g : Nat) :
    ∀ k ∈ keys.filter (isGroupKey subs g), k ∈ groupMembers subs g := by
  intro k hk
  rw [List.mem_filter] at hk
  obtain ⟨s, hl, hid⟩ := (isGroupKey_iff subs g k).mp hk.2
  exact (mem_groupMembers_iff subs g k).mpr ⟨s, lookupSub_mem hl, hid⟩

/-- When every member of group `g` is requested, the members are among the
requested keys of group `g`. -/
theorem groupMembers_subset_filter (subs : List (String × Sub))
    (keys : List String) (g : Nat)
    (hnd : (subs.map Prod.fst).Nodup)
    (hall : ∀ m ∈ groupMembers subs g, m ∈ keys) :
    ∀ m ∈ groupMembers subs g, m ∈ keys.filter (isGroupKey subs g) := by
  intro m hm
  obtain ⟨s, hs, hid⟩ := (mem_groupMembers_iff subs g m).mp hm
  rw [List.mem_filter]
  exact ⟨hall m hm,
    (isGroupKey_iff subs g m).mpr ⟨s, lookupSub_of_mem hs hnd, hid⟩⟩

/-- Two nodup lists, each contained in the other, have the same length. -/
theorem length_eq_of_subset_subset {l1 l2 : List String}
    (h12 : ∀ x ∈ l1, x ∈ l2) (h21 : ∀ x ∈ l2, x ∈ l1)
    (h1 : l1.Nodup) (h2 : l2.Nodup) : l1.length = l2.length := by
  have hf : l1.toFinset = l2.toFinset := by
    apply Finset.Subset.antisymm <;> intro x hx
    · rw [List.mem_toFinset] at hx ⊢
      exact h12 x hx
    · rw [List.mem_toFinset] at hx ⊢
      exact h21 x hx
  rw [← List.toFinset_card_of_nodup h1, ← List.toFinset_card_of_nodup h2, hf]

/-- A nodup list contained in a nodup list of no greater length contains it. -/
theorem subset_of_subset_of_length_le {l1 l2 : List String}
    (h12 : ∀ x ∈ l1, x ∈ l2) (h1 : l1.Nodup) (h2 : l2.Nodup)
    (hlen : l2.length ≤ l1.length) : ∀ x ∈ l2, x ∈ l1 := by
  have hsub : l1.toFinset ⊆ l2.toFinset := by
    intro x hx
    rw [List.mem_toFinset] at hx ⊢
    exact h12 x hx
  have hcard : l2.toFinset.card ≤ l1.toFinset.card := by
    rwa [List.toFinset_card_of_nodup h1, List.toFinset_card_of_nodup h2]
  have := Finset.eq_of_subset_of_card_le hsub hcard
  intro x hx
  rw [← List.mem_toFinset, ← this, List.mem_toFinset] at hx
  exact hx

/-- C2: for every well-formed registry and every `Unsubscribe` whose requested
markets are all present: the call succeeds, removes exactly the requested keys,
closes the inbound channel of every removed key, and closes the shared outbound
channel of a subscribe-call group exactly when every current member of that
group is being removed — so unsubscribing a strict subset of a group leaves the
group's shared outbound channel open, and it is closed exactly when the last
remaining members are removed. -/
theorem C2_group_unsubscribe (channelName : String) (st : RegState)
    (markets : List String)
    (hwf : RegWF st.subs)
    (hpresent : ∀ m ∈ getUniqueMarkets markets, m ∈ getSubscriptionKeys st.subs) :
    (genUnsubscribe channelName st markets).result = none ∧
    (genUnsubscribe channelName st markets).state.subs =
      st.subs.filter (fun p => !((getUniqueMarkets markets).contains p.1)) ∧
    (∀ m ∈ getUniqueMarkets markets, ∀ s, lookupSub st.subs m = some s →
      Effect.chanClosed s.inchn ∈ (genUnsubscribe channelName st markets).effects) ∧
    (∀ g oc, groupOutchn st.subs g = some oc →
      (Effect.chanClosed oc ∈ (genUnsubscribe channelName st markets).effects ↔
        ∀ m ∈ groupMembers st.subs g, m ∈ getUniqueMarkets markets)) := by
  obtain ⟨hnd, hiff, hio⟩ := hwf
  have hmsnd : (getUniqueMarkets markets).Nodup := List.nodup_dedup markets
  have hr : requireSubscription st.subs (getUniqueMarkets markets) = none :=
    (requireSubscription_eq_none _ _).mpr hpresent
  have heff : (genUnsubscribe channelName st markets).effects =
      Effect.msgSent (newWebSocketMessage "unsubscribe" channelName
        (getUniqueMarkets markets)) ::
      (inChanCloses st.subs (getUniqueMarkets markets) ++
       outChanCloses st.subs (getUniqueMarkets markets)) := by
    simp [genUnsubscribe, hr, deleteSubscriptions]
  refine ⟨?_, ?_, ?_, ?_⟩
  · simp [genUnsubscribe, hr]
  · simp [genUnsubscribe, hr, deleteSubscriptions]
  · intro m hm s hs
    rw [heff, List.mem_cons]
    right
    rw [List.mem_append]
    left
    rw [inChanCloses, List.mem_filterMap]
    exact ⟨m, hm, by rw [hs]; rfl⟩
  · intro g oc hoc
    obtain ⟨q, hqfind⟩ : ∃ q, (st.subs.find? fun p => p.2.id = g) = some q := by
      unfold groupOutchn at hoc
      cases hf : st.subs.find? fun p => p.2.id = g with
      | none => rw [hf] at hoc; cases hoc
      | some q => exact ⟨q, rfl⟩
    have hqmem : q ∈ st.subs := List.mem_of_find?_eq_some hqfind
    have hqid : q.2.id = g := by simpa using List.find?_some hqfind
    have hqoc : q.2.outchn = oc := by
      unfold groupOutchn at hoc
      rw [hqfind] at hoc
      simpa using hoc
    rw [heff, List.mem_cons, List.mem_append]
    constructor
    · rintro (habs | hin | hout)
      · cases habs
      · -- an inbound channel is never an outbound channel
        exfalso
        rw [inChanCloses, List.mem_filterMap] at hin
        obtain ⟨m, _, hfm⟩ := hin
        cases h' : lookupSub st.subs m with
        | none => rw [h'] at hfm; cases hfm
        | some s =>
          rw [h'] at hfm
          have hsoc : s.inchn = oc := by simpa using hfm
          exact hio (m, s) (lookupSub_mem h') q hqmem (hqoc ▸ hsoc)
      · rw [outChanCloses, List.mem_filterMap] at hout
        obtain ⟨⟨g', l⟩, hgl, hf⟩ := hout
        cases l with
        | nil => dsimp only at hf; cases hf
        | cons k rest =>
          dsimp only at hf
          by_cases hcond : countId st.subs g' = (k :: rest).length
          · rw [if_pos hcond] at hf
            cases h' : lookupSub st.subs k with
            | none => rw [h'] at hf; cases hf
            | some s =>
              rw [h'] at hf
              have hsoc : s.outchn = oc := by simpa using hf
              -- the head key belongs to group g'
              have hl := (groupIds_mem_iff st.subs (getUniqueMarkets markets)
                g' (k :: rest)).mp hgl
              have hkfil : k ∈ (getUniqueMarkets markets).filter
                  (isGroupKey st.subs g') := by
                rw [← hl.1]
                exact List.mem_cons_self _ _
              obtain ⟨s', hs', hid'⟩ :=
                (isGroupKey_iff st.subs g' k).mp (List.mem_filter.mp hkfil).2
              rw [h'] at hs'
              cases hs'
              -- s.outchn = oc = q.outchn forces s.id = q.id, so g' = g
              have hgg : g' = g := by
                rw [← hid']
                rw [← hqid]
                exact (hiff (k, s) (lookupSub_mem h') q hqmem).mpr
                  (hqoc ▸ hsoc)
              subst hgg
              -- all members of g' are requested
              intro m hm
              have hsub1 := filter_subset_groupMembers st.subs
                (getUniqueMarkets markets) g'
              have hlen : (groupMembers st.subs g').length ≤
                  ((getUniqueMarkets markets).filter (isGroupKey st.subs g')).length := by
                rw [← countId_eq_length_groupMembers, hcond, ← hl.1]
              have hsub2 := subset_of_subset_of_length_le hsub1
                (hmsnd.filter _) (groupMembers_nodup st.subs g' hnd) hlen
              exact List.mem_of_mem_filter (hsub2 m hm)
          · rw [if_neg hcond] at hf
            cases hf
    · intro hall
      right; right
      -- the requested keys of group g are exactly its members
      have hsub1 := filter_subset_groupMembers st.subs (getUniqueMarkets markets) g
      have hsub2 := groupMembers_subset_filter st.subs (getUniqueMarkets markets)
        g hnd hall
      have hlen := length_eq_of_subset_subset hsub2 hsub1
        (groupMembers_nodup st.subs g hnd) (hmsnd.filter _)
      have hq1mem : q.1 ∈ groupMembers st.subs g :=
        (mem_groupMembers_iff st.subs g q.1).mpr ⟨q.2, by simpa using hqmem, hqid⟩
      have hq1fil : q.1 ∈ (getUniqueMarkets markets).filter (isGroupKey st.subs g) :=
        hsub2 q.1 hq1mem
      obtain ⟨k, rest, hkrest⟩ : ∃ k rest,
          (getUniqueMarkets markets).filter (isGroupKey st.subs g) = k :: rest := by
        cases hfl : (getUniqueMarkets markets).filter (isGroupKey st.subs g) with
        | nil => rw [hfl] at hq1fil; cases hq1fil
        | cons k rest => exact ⟨k, rest, rfl⟩
      have hgl : (g, k :: rest) ∈ groupIds st.subs (getUniqueMarkets markets) :=
        (groupIds_mem_iff _ _ _ _).mpr ⟨hkrest.symm, by simp⟩
      have hkmem : k ∈ (getUniqueMarkets markets).filter (isGroupKey st.subs g) := by
        rw [hkrest]
        exact List.mem_cons_self _ _
      obtain ⟨s, hs, hid⟩ :=
        (isGroupKey_iff st.subs g k).mp (List.mem_filter.mp hkmem).2
      have hsid : s.id = q.2.id := by rw [hid, hqid]
      have hsoc : s.outchn = oc := by
        rw [← hqoc]
        exact (hiff (k, s) (lookupSub_mem hs) q hqmem).mp hsid
      have hcond : countId st.subs g = (k :: rest).length := by
        rw [countId_eq_length_groupMembers, hlen, hkrest]
      rw [outChanCloses, List.mem_filterMap]
      refine ⟨(g, k :: rest), hgl, ?_⟩
      dsimp only
      rw [if_pos hcond, hs]
      simp [hsoc]

/-- Witness for C2: a registry with one two-market group `{ETH-EUR, BTC-EUR}`
(group id 0, shared outbound channel 0) and a singleton group `{LTC-EUR}`
(group id 1, outbound channel 5).  Unsubscribing the strict subset
`["ETH-EUR"]` succeeds, removes exactly that key, closes its inbound channel 1,
and closes no outbound channel — in particular channel 0 stays open. -/
theorem C2_group_unsubscribe_witness :
    (genUnsubscribe "ticker"
        (RegState.mk
          [("ETH-EUR", ⟨0, "ETH-EUR", 1, 50, 0, 100⟩),
           ("BTC-EUR", ⟨0, "BTC-EUR", 2, 50, 0, 100⟩),
           ("LTC-EUR", ⟨1, "LTC-EUR", 6, 50, 5, 50⟩)] 2 7)
        ["ETH-EUR"]).result = none ∧
    (genUnsubscribe "ticker"
        (RegState.mk
          [("ETH-EUR", ⟨0, "ETH-EUR", 1, 50, 0, 100⟩),
           ("BTC-EUR", ⟨0, "BTC-EUR", 2, 50, 0, 100⟩),
           ("LTC-EUR", ⟨1, "LTC-EUR", 6, 50, 5, 50⟩)] 2 7)
        ["ETH-EUR"]).state.subs =
      (RegState.mk
          [("ETH-EUR", ⟨0, "ETH-EUR", 1, 50, 0, 100⟩),
           ("BTC-EUR", ⟨0, "BTC-EUR", 2, 50, 0, 100⟩),
           ("LTC-EUR", ⟨1, "LTC-EUR", 6, 50, 5, 50⟩)] 2 7).subs.filter
        (fun p => !((getUniqueMarkets ["ETH-EUR"]).contains p.1)) ∧
    (∀ m ∈ getUniqueMarkets ["ETH-EUR"], ∀ s,
      lookupSub (RegState.mk
          [("ETH-EUR", ⟨0, "ETH-EUR", 1, 50, 0, 100⟩),
           ("BTC-EUR", ⟨0, "BTC-EUR", 2, 50, 0, 100⟩),
           ("LTC-EUR", ⟨1, "LTC-EUR", 6, 50, 5, 50⟩)] 2 7).subs m = some s →
      Effect.chanClosed s.inchn ∈
        (genUnsubscribe "ticker"
          (RegState.mk
            [("ETH-EUR", ⟨0, "ETH-EUR", 1, 50, 0, 100⟩),
             ("BTC-EUR", ⟨0, "BTC-EUR", 2, 50, 0, 100⟩),
             ("LTC-EUR", ⟨1, "LTC-EUR", 6, 50, 5, 50⟩)] 2 7)
          ["ETH-EUR"]).effects) ∧
    (∀ g oc, groupOutchn (RegState.mk
          [("ETH-EUR", ⟨0, "ETH-EUR", 1, 50, 0, 100⟩),
           ("BTC-EUR", ⟨0, "BTC-EUR", 2, 50, 0, 100⟩),
           ("LTC-EUR", ⟨1, "LTC-EUR", 6, 50, 5, 50⟩)] 2 7).subs g = some oc →
      (Effect.chanClosed oc ∈
          (genUnsubscribe "ticker"
            (RegState.mk
              [("ETH-EUR", ⟨0, "ETH-EUR", 1, 50, 0, 100⟩),
               ("BTC-EUR", ⟨0, "BTC-EUR", 2, 50, 0, 100⟩),
               ("LTC-EUR", ⟨1, "LTC-EUR", 6, 50, 5, 50⟩)] 2 7)
            ["ETH-EUR"]).effects ↔
        ∀ m ∈ groupMembers (RegState.mk
            [("ETH-EUR", ⟨0, "ETH-EUR", 1, 50, 0, 100⟩),
             ("BTC-EUR", ⟨0, "BTC-EUR", 2, 50, 0, 100⟩),
             ("LTC-EUR", ⟨1, "LTC-EUR", 6, 50, 5, 50⟩)] 2 7).subs g,
          m ∈ getUniqueMarkets ["ETH-EUR"])) :=
  C2_group_unsubscribe "ticker"
    (RegState.mk
      [("ETH-EUR", ⟨0, "ETH-EUR", 1, 50, 0, 100⟩),
       ("BTC-EUR", ⟨0, "BTC-EUR", 2, 50, 0, 100⟩),
       ("LTC-EUR", ⟨1, "LTC-EUR", 6, 50, 5, 50⟩)] 2 7)
    ["ETH-EUR"] (by decide) (by decide)

/-- Witness for C4 at a concrete candles registry with two intervals and a
concrete account registry. -/
theorem C4_reconnect_replays_witness :
    candlesReconnect (RegState.mk
        [("ETH-EUR_5m", ⟨0, "ETH-EUR", 1, 50, 0, 100⟩),
         ("BTC-EUR_5m", ⟨0, "BTC-EUR", 2, 50, 0, 100⟩),
         ("ETH-EUR_1h", ⟨1, "ETH-EUR", 4, 50, 3, 50⟩)] 2 5) =
      (RegState.mk
        [("ETH-EUR_5m", ⟨0, "ETH-EUR", 1, 50, 0, 100⟩),
         ("BTC-EUR_5m", ⟨0, "BTC-EUR", 2, 50, 0, 100⟩),
         ("ETH-EUR_1h", ⟨1, "ETH-EUR", 4, 50, 3, 50⟩)] 2 5,
       (getIntervalMarkets
          [("ETH-EUR_5m", ⟨0, "ETH-EUR", 1, 50, 0, 100⟩),
           ("BTC-EUR_5m", ⟨0, "BTC-EUR", 2, 50, 0, 100⟩),
           ("ETH-EUR_1h", ⟨1, "ETH-EUR", 4, 50, 3, 50⟩)]).map fun im =>
         Effect.msgSent (newCandleWebSocketMessage "subscribe" im.2 im.1)) ∧
    accountReconnect (AccountState.mk "key" "secret" true
        [("BTC-EUR", AccountSub.mk 0 "BTC-EUR" 2 3 0 1 50 50)] 1 6) 99 true =
      ({ AccountState.mk "key" "secret" true
           [("BTC-EUR", AccountSub.mk 0 "BTC-EUR" 2 3 0 1 50 50)] 1 6 with
           authenticated := true },
       Effect.msgSent (newWebSocketAuthMessage "key" "secret" 99) ::
         (if true then
            [Effect.msgSent (newWebSocketMessage "subscribe" "account"
              (getSubscriptionKeys
                [("BTC-EUR", AccountSub.mk 0 "BTC-EUR" 2 3 0 1 50 50)]))]
          else [])) :=
  ⟨(C4_reconnect_replays "ticker" (RegState.mk
      [("ETH-EUR_5m", ⟨0, "ETH-EUR", 1, 50, 0, 100⟩),
       ("BTC-EUR_5m", ⟨0, "BTC-EUR", 2, 50, 0, 100⟩),
       ("ETH-EUR_1h", ⟨1, "ETH-EUR", 4, 50, 3, 50⟩)] 2 5)
      (AccountState.mk "key" "secret" true
        [("BTC-EUR", AccountSub.mk 0 "BTC-EUR" 2 3 0 1 50 50)] 1 6) 99 true).2.1,
   (C4_reconnect_replays "ticker" (RegState.mk
      [("ETH-EUR_5m", ⟨0, "ETH-EUR", 1, 50, 0, 100⟩),
       ("BTC-EUR_5m", ⟨0, "BTC-EUR", 2, 50, 0, 100⟩),
       ("ETH-EUR_1h", ⟨1, "ETH-EUR", 4, 50, 3, 50⟩)] 2 5)
      (AccountState.mk "key" "secret" true
        [("BTC-EUR", AccountSub.mk 0 "BTC-EUR" 2 3 0 1 50 50)] 1 6) 99 true).2.2.2.2.2.1⟩

/-- Witness for C7 (amended) at a concrete handler list and event. -/
theorem C7_routing_witness :
    (∀ k, k ∈ handleEventSwitch [TopicKind.ticker, TopicKind.book] WsEvent.book ↔
      (k ∈ [TopicKind.ticker, TopicKind.book] ∧
        topicOfEvent WsEvent.book = some k)) ∧
    handleEventBroadcast [TopicKind.ticker, TopicKind.book] WsEvent.book =
      (if WsEvent.book = WsEvent.subscribed ∨ WsEvent.book = WsEvent.unsubscribed
       then [] else [TopicKind.ticker, TopicKind.book]) :=
  ⟨(C7_routing [TopicKind.ticker, TopicKind.book] WsEvent.book).1,
   (C7_routing [TopicKind.ticker, TopicKind.book] WsEvent.book).2.1⟩

/-- Witness for C10 at a concrete nonempty registry. -/
theorem C10_empty_subscribe_witness :
    genSubscribe "ticker"
        (RegState.mk [("ETH-EUR", ⟨0, "ETH-EUR", 1, 50, 0, 50⟩)] 1 2) [] none =
      ⟨.ok 2,
       { subs := [("ETH-EUR", ⟨0, "ETH-EUR", 1, 50, 0, 50⟩)]
         nextId := 1 + 1
         nextChan := 2 + 1 },
       [Effect.chanCreated 2 0,
        Effect.msgSent (newWebSocketMessage "subscribe" "ticker" [])]⟩ :=
  C10_empty_subscribe "ticker"
    (RegState.mk [("ETH-EUR", ⟨0, "ETH-EUR", 1, 50, 0, 50⟩)] 1 2) none

end Bitvavo
